import Mathlib

/-!
# Verification of the sevenzip-ffi 7z container writer and reader helpers

Shallow embedding of the C sources under `src/` into Lean 4.  Bytes are
modelled as `Nat` values (< 256 where it matters); byte buffers as
`List Nat`; machine integers as `Nat` (all the C arithmetic embedded here
stays within `uint64_t` range, guarded by explicit hypotheses where
needed).  C bit operations on guarded ranges are rendered arithmetically:
`value >> k` is `v / 2 ^ k`, `x & 0xFF` is `x % 256`, and `a | x` with `a`
and `x` ranging over disjoint bit ranges (as the surrounding branch
guards guarantee) is `a + x`.
-/

namespace SevenZip

set_option maxRecDepth 16384

/-! ## Varint codec (archive_create.c `WriteNumber`, archive_create_true_streaming.c `write_number`) -/

/-- `WriteNumber` from `src/src/archive_create.c` (an identical copy lives in
`src/src/archive_create_multivolume.c`): the 7z variable-length integer
encoder.  Each branch mirrors the corresponding C branch; e.g. the 3-byte
branch `0xC0 | ((value >> 16) & 0x1F)` is `0xC0 + v / 2 ^ 16 % 32`. -/
def WriteNumber (v : Nat) : List Nat :=
  if v < 0x80 then
    [v]
  else if v < 2 ^ 14 then
    [0x80 + v / 2 ^ 8, v % 256]
  else if v < 2 ^ 21 then
    [0xC0 + v / 2 ^ 16 % 32, v % 256, v / 2 ^ 8 % 256]
  else if v < 2 ^ 28 then
    [0xE0 + v / 2 ^ 24 % 16, v % 256, v / 2 ^ 8 % 256, v / 2 ^ 16 % 256]
  else if v < 2 ^ 35 then
    [0xF0 + v / 2 ^ 32 % 8, v % 256, v / 2 ^ 8 % 256, v / 2 ^ 16 % 256,
      v / 2 ^ 24 % 256]
  else if v < 2 ^ 42 then
    [0xF8 + v / 2 ^ 40 % 4, v % 256, v / 2 ^ 8 % 256, v / 2 ^ 16 % 256,
      v / 2 ^ 24 % 256, v / 2 ^ 32 % 256]
  else if v < 2 ^ 49 then
    [0xFC + v / 2 ^ 48 % 2, v % 256, v / 2 ^ 8 % 256, v / 2 ^ 16 % 256,
      v / 2 ^ 24 % 256, v / 2 ^ 32 % 256, v / 2 ^ 40 % 256]
  else if v < 2 ^ 56 then
    [0xFE, v % 256, v / 2 ^ 8 % 256, v / 2 ^ 16 % 256, v / 2 ^ 24 % 256,
      v / 2 ^ 32 % 256, v / 2 ^ 40 % 256, v / 2 ^ 48 % 256]
  else
    [0xFF, v % 256, v / 2 ^ 8 % 256, v / 2 ^ 16 % 256, v / 2 ^ 24 % 256,
      v / 2 ^ 32 % 256, v / 2 ^ 40 % 256, v / 2 ^ 48 % 256, v / 2 ^ 56 % 256]

/-- `write_number` from `src/src/archive_create_true_streaming.c`: identical to
`WriteNumber` up to four bytes, but any value `≥ 2 ^ 28` is emitted as the
9-byte form `0xFF` followed by eight little-endian bytes. -/
def tsWriteNumber (v : Nat) : List Nat :=
  if v < 0x80 then
    [v]
  else if v < 2 ^ 14 then
    [0x80 + v / 2 ^ 8, v % 256]
  else if v < 2 ^ 21 then
    [0xC0 + v / 2 ^ 16 % 32, v % 256, v / 2 ^ 8 % 256]
  else if v < 2 ^ 28 then
    [0xE0 + v / 2 ^ 24 % 16, v % 256, v / 2 ^ 8 % 256, v / 2 ^ 16 % 256]
  else
    [0xFF, v % 256, v / 2 ^ 8 % 256, v / 2 ^ 16 % 256, v / 2 ^ 24 % 256,
      v / 2 ^ 32 % 256, v / 2 ^ 40 % 256, v / 2 ^ 48 % 256, v / 2 ^ 56 % 256]

/-- `GetNumberSize` from `src/src/archive_create.c`: the loop
`for i in 0..7: if value < 2^(7*(i+1)) return i+1; return 9`, unrolled. -/
def GetNumberSize (v : Nat) : Nat :=
  if v < 2 ^ 7 then 1
  else if v < 2 ^ 14 then 2
  else if v < 2 ^ 21 then 3
  else if v < 2 ^ 28 then 4
  else if v < 2 ^ 35 then 5
  else if v < 2 ^ 42 then 6
  else if v < 2 ^ 49 then 7
  else if v < 2 ^ 56 then 8
  else 9

/-- Little-endian byte list to number. -/
def leNat : List Nat → Nat
  | [] => 0
  | b :: bs => b + 256 * leNat bs

/-- Number of additional bytes announced by the first byte of a 7z varint:
the count of leading set bits before the first clear bit. -/
def numExtraBytes (b0 : Nat) : Nat :=
  if b0 < 0x80 then 0
  else if b0 < 0xC0 then 1
  else if b0 < 0xE0 then 2
  else if b0 < 0xF0 then 3
  else if b0 < 0xF8 then 4
  else if b0 < 0xFC then 5
  else if b0 < 0xFE then 6
  else if b0 = 0xFE then 7
  else 8

/-- Modelled from the spec: the §4.1 varint decoder (the repository's read
path uses the external LZMA SDK's `ReadNumber` from `7zArcIn.c`, which is not
under `src/`).  The first byte has a prefix of `k` set bits followed by a zero
bit; the remaining low bits of the first byte are the high bits of the value,
and the `k` additional bytes carry the rest in little-endian order.  Returns
the value and the exact number of bytes consumed, or `none` if the input is
too short. -/
def ReadNumber : List Nat → Option (Nat × Nat)
  | [] => none
  | b0 :: rest =>
    if rest.length < numExtraBytes b0 then none
    else
      some (leNat (rest.take (numExtraBytes b0)) +
        (if numExtraBytes b0 = 8 then 0 else b0 % 2 ^ (7 - numExtraBytes b0)) *
          2 ^ (8 * numExtraBytes b0),
        numExtraBytes b0 + 1)

/-! ## Byte-stream utilities and CRC-32 -/

/-- One LSB-first CRC-32 shift round: `c >> 1`, XORed with the reflected
IEEE 802.3 polynomial `0xEDB88320` when the shifted-out bit was set. -/
def crc32Round (c : Nat) : Nat := if c % 2 = 1 then c / 2 ^^^ 0xEDB88320 else c / 2

/-- Absorb one byte into a CRC-32 accumulator. -/
def crc32Byte (c b : Nat) : Nat := crc32Round^[8] (c ^^^ b % 256)

/-- Modelled from the spec: CRC-32 (IEEE 802.3), reading least-significant bit
first, initial value `0xFFFFFFFF`, final XOR `0xFFFFFFFF` (§4.2).  The
repository computes CRCs through the external LZMA SDK's table-driven
`CrcCalc`/`CrcUpdate`/`CRC_GET_DIGEST`, which is not under `src/`; this is
the bit-serial definition of the same function. -/
def crc32 (data : List Nat) : Nat := data.foldl crc32Byte 0xFFFFFFFF ^^^ 0xFFFFFFFF

/-- Little-endian serialization of a 32-bit value (the byte image of
`fwrite(&u32, 4, 1, f)` on the little-endian hosts the writer targets). -/
def le32 (v : Nat) : List Nat :=
  [v % 256, v / 2 ^ 8 % 256, v / 2 ^ 16 % 256, v / 2 ^ 24 % 256]

/-- Little-endian serialization of a 64-bit value. -/
def le64 (v : Nat) : List Nat :=
  [v % 256, v / 2 ^ 8 % 256, v / 2 ^ 16 % 256, v / 2 ^ 24 % 256,
    v / 2 ^ 32 % 256, v / 2 ^ 40 % 256, v / 2 ^ 48 % 256, v / 2 ^ 56 % 256]

/-- In-place overwrite of `r` at byte offset `pos` (the effect of
`fseek(f, pos, SEEK_SET); fwrite(r, 1, r.length, f)` on a file image). -/
def patchBytes (l : List Nat) (pos : Nat) (r : List Nat) : List Nat :=
  l.take pos ++ r ++ l.drop (pos + r.length)

/-- The `len` bytes of `l` starting at offset `pos`. -/
def listSlice (l : List Nat) (pos len : Nat) : List Nat := (l.drop pos).take len

/-! ## Data model: `SevenZFile` (archive_create.c) -/

/-- One scanned entry of the in-memory archive builder (`SevenZFile` in
`src/src/archive_create.c`).  `name` holds the bytes of the C `name` string,
`data` the raw file contents (`size` in the C struct is `data.length`; empty
for directories), `mtime` the 64-bit Windows FILETIME, `attrib` the 32-bit
attribute word.  The per-file `crc` field, filled by `compress_all_files` as
`CrcCalc(data, size)`, is `crc32 data` here. -/
structure SevenZFile where
  name : List Nat
  data : List Nat
  mtime : Nat
  attrib : Nat
  is_dir : Bool
deriving DecidableEq

instance : Inhabited SevenZFile := ⟨⟨[], [], 0, 0, false⟩⟩

/-- The non-directory entries, in list order (the substreams of the folder). -/
def nonDirFiles (files : List SevenZFile) : List SevenZFile :=
  files.filter fun f => !f.is_dir

/-- `num_files` of `write_7z_archive`: the number of substreams. -/
def numFiles (files : List SevenZFile) : Nat := (nonDirFiles files).length

/-- `total_unpack_size`: sum of the non-directory entry sizes. -/
def totalUnpackSize (files : List SevenZFile) : Nat :=
  ((nonDirFiles files).map fun f => f.data.length).sum

/-- The substream sizes in file-list order. -/
def subStreamSizes (files : List SevenZFile) : List Nat :=
  (nonDirFiles files).map fun f => f.data.length

/-- The size-writing loop of `write_7z_archive` (archive_create.c:659-665,
identical in archive_create_multivolume.c:1186-1192): walk the file list,
emitting each non-directory entry's size, while fewer than `w` sizes have
been written. -/
def sizesLoop : List SevenZFile → Nat → List Nat
  | _, 0 => []
  | [], _ + 1 => []
  | f :: fs, w + 1 =>
    if f.is_dir then sizesLoop fs (w + 1)
    else WriteNumber f.data.length ++ sizesLoop fs w

/-- The optional `0x09` size group of SubStreamsInfo: present only when the
folder holds more than one substream; the loop bound is `num_files - 1`. -/
def subSizesGroup (files : List SevenZFile) : List Nat :=
  if 1 < numFiles files then 0x09 :: sizesLoop files (numFiles files - 1) else []

/-- The `0x0A` CRC group: all-defined byte `1`, then the little-endian CRC of
every substream in order. -/
def crcGroup (files : List SevenZFile) : List Nat :=
  0x0A :: 1 :: (nonDirFiles files).bind fun f => le32 (crc32 f.data)

/-- `p[i / 8] |= (1 << (7 - (i % 8)))` on the EmptyStream bit mask. -/
def setDirBit (mask : List Nat) (i : Nat) : List Nat :=
  mask.set (i / 8) (mask.getD (i / 8) 0 ||| 2 ^ (7 - i % 8))

/-- The EmptyStream bit-mask bytes: `(file_count + 7) / 8` zero bytes, then
one set bit (MSB-first within each byte) per directory entry
(archive_create.c:699-707; the identical loop in
archive_create_true_streaming.c:718-728 uses `0x80 >> (i % 8)`). -/
def dirMask (files : List SevenZFile) : List Nat :=
  (List.range files.length).foldl
    (fun mask i => if (files.getD i default).is_dir then setDirBit mask i else mask)
    (List.replicate ((files.length + 7) / 8) 0)

/-- `has_dirs`: whether any entry is a directory. -/
def hasDirs (files : List SevenZFile) : Bool := files.any fun f => f.is_dir

/-- The optional `0x0E` EmptyStream property group, emitted only when the
list contains a directory. -/
def emptyStreamGroup (files : List SevenZFile) : List Nat :=
  if hasDirs files then
    0x0E :: (WriteNumber ((files.length + 7) / 8) ++ dirMask files)
  else []

/-- Bit `i` of the EmptyStream mask, MSB-first within each byte. -/
def emptyStreamBit (files : List SevenZFile) (i : Nat) : Bool :=
  Nat.testBit ((dirMask files).getD (i / 8) 0) (7 - i % 8)

/-- `names_size`: `(strlen(name) + 1) * 2` summed over all entries. -/
def namesSize (files : List SevenZFile) : Nat :=
  (files.map fun f => (f.name.length + 1) * 2).sum

/-- One name as written: each byte followed by a zero high byte, then a
two-byte terminator. -/
def nameUtf16 (f : SevenZFile) : List Nat :=
  (f.name.bind fun c => [c, 0]) ++ [0, 0]

/-- The `0x11` Name property group. -/
def namesGroup (files : List SevenZFile) : List Nat :=
  0x11 :: (WriteNumber (namesSize files + 1) ++ 0 :: files.bind nameUtf16)

/-- The `0x14` MTime property group. -/
def mtimeGroup (files : List SevenZFile) : List Nat :=
  0x14 :: (WriteNumber (2 + 8 * files.length) ++
    1 :: 0 :: files.bind fun f => le64 f.mtime)

/-- The `0x15` WinAttrib property group. -/
def attribGroup (files : List SevenZFile) : List Nat :=
  0x15 :: (WriteNumber (2 + 4 * files.length) ++
    1 :: 0 :: files.bind fun f => le32 f.attrib)

/-- The coder spec of the single folder: Copy (`flags 0x01, id 0x00`) or
LZMA2 (`flags 0x21, id 0x21`, one property byte). -/
def coderSpec (useCopy : Bool) (propByte : Nat) : List Nat :=
  if useCopy then [0x01, 0x00]
  else [0x21, 0x21] ++ WriteNumber 1 ++ [propByte]

/-- The Header Block bytes built in memory by `write_7z_archive`
(archive_create.c:563-754), as a function of the file list, the coder choice
made by `compress_all_files`, and the packed-stream size. -/
def buildHeader (files : List SevenZFile) (useCopy : Bool) (propByte : Nat)
    (packSize : Nat) : List Nat :=
  [0x01, 0x04, 0x06] ++ WriteNumber 0 ++ WriteNumber 1 ++
  0x09 :: WriteNumber packSize ++
  [0x00, 0x07, 0x0B] ++ WriteNumber 1 ++ WriteNumber 0 ++ WriteNumber 1 ++
  coderSpec useCopy propByte ++
  0x0C :: WriteNumber (totalUnpackSize files) ++
  [0x00, 0x08, 0x0D] ++ WriteNumber (numFiles files) ++
  subSizesGroup files ++
  crcGroup files ++
  [0x00, 0x00, 0x05] ++ WriteNumber files.length ++
  emptyStreamGroup files ++
  namesGroup files ++
  mtimeGroup files ++
  attribGroup files ++
  [0x00, 0x00]

/-- `{'7', 'z', 0xBC, 0xAF, 0x27, 0x1C}`. -/
def k7zSignature : List Nat := [0x37, 0x7A, 0xBC, 0xAF, 0x27, 0x1C]

/-- The complete file image produced by `write_7z_archive` in
`src/src/archive_create.c` (success path): signature header with placeholder
tuple, packed stream, Header Block; then the two patches — the 20-byte tuple
`(NextHeaderOffset, NextHeaderSize, NextHeaderCRC)` at offset 12, and
`StartHeaderCRC` over those 20 bytes at offset 8.  `packData`, `useCopy` and
`propByte` abstract the output of the (opaque) codec step of
`compress_all_files`. -/
def write7zArchive (files : List SevenZFile) (useCopy : Bool) (propByte : Nat)
    (packData : List Nat) : List Nat :=
  let header := buildHeader files useCopy propByte packData.length
  let tuple := le64 packData.length ++ le64 header.length ++ le32 (crc32 header)
  let base := k7zSignature ++ [0, 4] ++ le32 0 ++ (le64 0 ++ le64 0 ++ le32 0) ++
    packData ++ header
  patchBytes (patchBytes base 12 tuple) 8 (le32 (crc32 tuple))

/-- The file image produced by `write_7z_archive` in
`src/src/archive_create_true_streaming.c` (lines 546-776): that writer stores
`NextHeaderOffset = data_size` immediately, leaves `NextHeaderSize` and
`NextHeaderCRC` as placeholders, appends the packed data and the header, then
patches offset 20 with the size and CRC and offset 8 with the StartHeader
CRC.  The header bytes (built between the writes) are abstracted as a
parameter. -/
def tsWrite7zArchive (data header : List Nat) : List Nat :=
  let base := k7zSignature ++ [0, 4] ++ le32 0 ++ le64 data.length ++
    (le64 0 ++ le32 0) ++ data ++ header
  let tuple := le64 data.length ++ le64 header.length ++ le32 (crc32 header)
  patchBytes (patchBytes base 20 (le64 header.length ++ le32 (crc32 header))) 8
    (le32 (crc32 tuple))

/-! ## True-streaming writer: SubStreamsInfo size loop (archive_create_true_streaming.c:645-660) -/

/-- Whether an entry contributes a substream in the true-streaming writer
(non-directory with `size > 0`). -/
def tsIsStream (f : SevenZFile) : Bool := !f.is_dir && f.data.length != 0

/-- `file_stream_count` of the true-streaming writer. -/
def tsStreamCount (files : List SevenZFile) : Nat :=
  (files.filter tsIsStream).length

/-- The substream sizes of the true-streaming writer, in list order. -/
def tsStreamSizes (files : List SevenZFile) : List Nat :=
  (files.filter tsIsStream).map fun f => f.data.length

/-- The size-writing loop of the true-streaming writer: a substream's size
is written when it is not the final list entry (`i < file_count - 1`) or when
the final list entry is a directory (`files[file_count-1].is_directory`). -/
def tsSizesLoop (lastIsDir : Bool) : List SevenZFile → List Nat
  | [] => []
  | f :: fs =>
    (if tsIsStream f && (!fs.isEmpty || lastIsDir)
     then tsWriteNumber f.data.length else []) ++ tsSizesLoop lastIsDir fs

/-- The `0x09` size group of the true-streaming writer's SubStreamsInfo
(emitted inside the `file_stream_count > 1` branch). -/
def tsSubSizesGroup (files : List SevenZFile) : List Nat :=
  if 1 < tsStreamCount files then
    0x09 :: tsSizesLoop (files.getLastD default).is_dir files
  else []

/-- Whether the final list entry is itself a substream. -/
def tsLastIsStream (files : List SevenZFile) : Bool :=
  tsIsStream (files.getLastD default) && !files.isEmpty

/-! ## Incompressibility heuristic -/

/-- The number of byte values whose frequency in the first
`min(len, 64 KiB)` bytes exceeds `sample_len / 512` (the `unique_bytes`
counter of `is_data_compressible`; the C frequency table `freq[b]` is the
count of `b` in the sample). -/
def uniqueCount (data : List Nat) : Nat :=
  ((List.range 256).filter fun b =>
    (data.take 65536).length / 512 < (data.take 65536).count b).length

/-- `is_data_compressible` from `src/src/archive_create.c` (threshold 220):
data shorter than 1024 bytes is always compressible; otherwise the data is
compressible iff fewer than 220 byte values are frequent in the sample. -/
def is_data_compressible (data : List Nat) : Bool :=
  if data.length < 1024 then true
  else uniqueCount data < 220

/-- `is_data_compressible` from `src/src/archive_create_multivolume.c`
(lines 597-619): identical but with threshold 200. -/
def mv_is_data_compressible (data : List Nat) : Bool :=
  if data.length < 1024 then true
  else uniqueCount data < 200

/-! ## Multi-volume writer (archive_create_multivolume.c), Store mode -/

/-- `prop_byte` selection of `build_7z_header`: the `lzma2_prop` of the first
non-directory entry, defaulting to `0x01` when every entry is a directory.
In Store mode (`level == SEVENZIP_LEVEL_STORE`) every non-directory entry's
`lzma2_prop` is 0. -/
def mvStorePropByte (files : List SevenZFile) : Nat :=
  match nonDirFiles files with
  | [] => 0x01
  | _ :: _ => 0

/-- The coder spec written by `build_7z_header`: Copy when `prop_byte == 0`,
LZMA2 with that property byte otherwise. -/
def mvCoderSpec (propByte : Nat) : List Nat :=
  if propByte = 0 then [0x01, 0x00]
  else [0x21, 0x21] ++ WriteNumber 1 ++ [propByte]

/-- `build_7z_header` from `src/src/archive_create_multivolume.c`
(lines 1096-1255), in Store mode where each entry's `crc` was filled by
`store_file_uncompressed` as `CRC_GET_DIGEST` of the file bytes (`crc32`
here).  Unlike `buildHeader`, it emits no EmptyStream group. -/
def mvBuildHeaderStore (files : List SevenZFile) (totalPackedSize : Nat) :
    List Nat :=
  [0x01, 0x04, 0x06] ++ WriteNumber 0 ++ WriteNumber 1 ++
  0x09 :: WriteNumber totalPackedSize ++
  [0x00, 0x07, 0x0B] ++ WriteNumber 1 ++ WriteNumber 0 ++ WriteNumber 1 ++
  mvCoderSpec (mvStorePropByte files) ++
  0x0C :: WriteNumber (totalUnpackSize files) ++
  [0x00, 0x08, 0x0D] ++ WriteNumber (numFiles files) ++
  subSizesGroup files ++
  crcGroup files ++
  [0x00, 0x00, 0x05] ++ WriteNumber files.length ++
  namesGroup files ++
  mtimeGroup files ++
  attribGroup files ++
  [0x00, 0x00]

/-- State of the multi-volume sink (`MultiVolumeContext`): the open volumes'
contents, `current_volume_size`, and `max_volume_size`. -/
structure VolumeSink where
  volumes : List (List Nat)
  curSize : Nat
  maxSize : Nat
deriving DecidableEq

/-- The new-volume step of `write_across_volumes`
(archive_create_multivolume.c:386-392): when there is no volume yet or the
current one is full, `open_new_volume` appends an empty volume and resets
`current_volume_size` to 0. -/
def sinkOpen (s : VolumeSink) : VolumeSink :=
  if s.volumes.isEmpty || s.maxSize ≤ s.curSize then
    ⟨s.volumes ++ [[]], 0, s.maxSize⟩
  else s

/-- Appending a chunk to the last (current) volume. -/
def sinkAppend (s : VolumeSink) (chunk : List Nat) : VolumeSink :=
  ⟨s.volumes.dropLast ++ [s.volumes.getLastD [] ++ chunk],
    s.curSize + chunk.length, s.maxSize⟩

/-- The loop of `write_across_volumes` (archive_create_multivolume.c:381-421)
driven by explicit fuel: open a new volume if needed, then write
`min(remaining, max_volume_size - current_volume_size)` bytes into the
current volume, and recurse on the remainder. -/
def writeAcrossFuel : Nat → VolumeSink → List Nat → VolumeSink
  | 0, s, _ => s
  | fuel + 1, s, data =>
    if data.isEmpty then s
    else
      writeAcrossFuel fuel
        (sinkAppend (sinkOpen s)
          (data.take ((sinkOpen s).maxSize - (sinkOpen s).curSize)))
        (data.drop ((sinkOpen s).maxSize - (sinkOpen s).curSize))

/-- `write_across_volumes`: with a positive `max_volume_size`, every loop
iteration writes at least one byte, so `data.length` steps suffice. -/
def writeAcross (s : VolumeSink) (data : List Nat) : VolumeSink :=
  writeAcrossFuel data.length s data

/-- The volume files produced by `sevenzip_create_multivolume_7z_complete`
(archive_create_multivolume.c:1258-1629) in Store mode: the 32-byte signature
header (with a zeroed 24-byte tuple area) is written directly into the first
volume; the stored file bytes and then the header go through
`write_across_volumes`; finally the 4-byte StartHeaderCRC and the 20-byte
tuple are patched at offset 8 of the first volume. -/
def mvWriteVolumesStore (files : List SevenZFile) (maxSize : Nat) :
    List (List Nat) :=
  let sig := k7zSignature ++ [0, 4] ++ List.replicate 24 0
  let pack := (nonDirFiles files).bind fun f => f.data
  let header := mvBuildHeaderStore files pack.length
  let s1 := writeAcross (writeAcross ⟨[sig], 32, maxSize⟩ pack) header
  let tuple := le64 pack.length ++ le64 header.length ++ le32 (crc32 header)
  match s1.volumes with
  | [] => []
  | v0 :: rest => patchBytes v0 8 (le32 (crc32 tuple) ++ tuple) :: rest

/-- The logical byte stream of the Store-mode multi-volume writer: what the
volumes hold when read back as one stream. -/
def mvArchiveLogicalStore (files : List SevenZFile) : List Nat :=
  let pack := (nonDirFiles files).bind fun f => f.data
  let header := mvBuildHeaderStore files pack.length
  let tuple := le64 pack.length ++ le64 header.length ++ le32 (crc32 header)
  patchBytes (k7zSignature ++ [0, 4] ++ List.replicate 24 0 ++ pack ++ header) 8
    (le32 (crc32 tuple) ++ tuple)

/-- The file list the single-file path (`sevenzip_create_7z`) builds for one
regular input file: `attrib = st.st_mode` (archive_create.c:928). -/
def scanSingle (name data : List Nat) (mode mtimeUnix : Nat) : SevenZFile :=
  ⟨name, data, mtimeUnix * 10000000 + 116444736000000000, mode, false⟩

/-- The entry the multi-volume gatherer builds for the same regular file:
`attrib = 0x20 | (readonly ? 0x01 : 0)` where readonly means `S_IWUSR`
(octal 0200) is clear (archive_create_multivolume.c:159-162). -/
def mvScanSingle (name data : List Nat) (mode mtimeUnix : Nat) : SevenZFile :=
  ⟨name, data, mtimeUnix * 10000000 + 116444736000000000,
    if mode / 128 % 2 = 1 then 0x20 else 0x21, false⟩

/-! ## Split-volume reader (archive_extract_split.c `open_split_volumes`) -/

/-- A file system as an association list from path (list of characters) to
file size; `fopen` success is membership. -/
def fsLookup (fs : List (List Char × Nat)) (p : List Char) : Option Nat :=
  (fs.find? fun e => e.1 == p).map fun e => e.2

/-- `%03d` formatting for volume indices 1-999. -/
def pad3 (i : Nat) : List Char :=
  (if i < 10 then ['0', '0'] else if i < 100 then ['0'] else []) ++
    Nat.toDigits 10 i

/-- `<base>.NNN`. -/
def volumeName (base : List Char) (i : Nat) : List Char :=
  base ++ '.' :: pad3 i

/-- The base-path trim of `open_split_volumes` (lines 144-149): strip a
trailing `.NNN` when the path is longer than 4, has `.` four from the end,
and a decimal digit three from the end. -/
def trimBase (p : List Char) : List Char :=
  if 4 < p.length ∧ p.getD (p.length - 4) ' ' = '.' ∧
      (p.getD (p.length - 3) ' ').isDigit
  then p.take (p.length - 4) else p

/-- The volume-collecting loop from index `i` on (lines 181-187): open
`<base>.NNN` for ascending `i ≤ 999`, stopping at the first missing file.
Structural fuel (`1000 - i` at the call site) drives the recursion. -/
def collectVolumesFuel (fs : List (List Char × Nat)) (base : List Char) :
    Nat → Nat → List Nat
  | _, 0 => []
  | i, fuel + 1 =>
    if 999 < i then []
    else
      match fsLookup fs (volumeName base i) with
      | some sz => sz :: collectVolumesFuel fs base (i + 1) fuel
      | none => []

def collectVolumes (fs : List (List Char × Nat)) (base : List Char)
    (i : Nat) : List Nat :=
  collectVolumesFuel fs base i (1000 - i)

/-- `open_split_volumes` (archive_extract_split.c:139-245): volume 1 is
`<base>.001`, or the bare `<base>` when that does not exist; later volumes
are `<base>.NNN` in ascending order until the first missing index; the open
fails (returns 0) only when no first volume could be opened.  Returns the
list of volume sizes. -/
def open_split_volumes (fs : List (List Char × Nat)) (first_volume_path : List Char) :
    Option (List Nat) :=
  let base := trimBase first_volume_path
  match fsLookup fs (volumeName base 1) with
  | some sz => some (sz :: collectVolumes fs base 2)
  | none =>
    match fsLookup fs base with
    | some sz => some (sz :: collectVolumes fs base 2)
    | none => none

/-! ## AES-CBC decryption wrapper (encryption_aes.c `sevenzip_decrypt_data`) -/

/-- Result of `sevenzip_decrypt_data`: the error code plus, on success, the
plaintext with `*plaintext_len` applied. -/
inductive DecryptResult where
  | ok (plaintext : List Nat)
  | errorInvalidParam
  | errorExtract
deriving DecidableEq

/-- `sevenzip_decrypt_data` (encryption_aes.c:185-244), with the AES-CBC
block decryption `g_AesCbc_Decode` (an external LZMA SDK primitive operating
on the already-derived key schedule and IV) abstracted as `cbcDecode`.
The ciphertext length must be a multiple of 16; the decrypted buffer's final
byte is read as the padding count; when it lies in `[1,16]` the last `pad`
bytes are verified (any mismatch is `SEVENZIP_ERROR_EXTRACT`, "invalid
padding = wrong password") and stripped; otherwise the call SUCCEEDS with
the full buffer (`*plaintext_len = ciphertext_len`). -/
def sevenzip_decrypt_data (cbcDecode : List Nat → List Nat)
    (ciphertext : List Nat) : DecryptResult :=
  if ciphertext.length % 16 ≠ 0 then .errorInvalidParam
  else
    let pt := cbcDecode ciphertext
    let pad := pt.getD (ciphertext.length - 1) 0
    if 0 < pad ∧ pad ≤ 16 then
      if (List.range' (ciphertext.length - pad) pad).all
          (fun i => pt.getD i 0 = pad) then
        .ok (pt.take (ciphertext.length - pad))
      else .errorExtract
    else .ok (pt.take ciphertext.length)

/-! ## Key derivation (encryption_aes.c `derive_key_from_password`) -/

/-- `derive_key_from_password` (encryption_aes.c:27-56), with SHA-256 (an
external LZMA SDK primitive) abstracted as `sha256`: the first iteration
hashes `password ++ salt`; each of the remaining `iterations - 1` iterations
hashes the previous digest; the first `min(key_len, 32)` bytes of the final
digest are the key. -/
def derive_key_from_password (sha256 : List Nat → List Nat)
    (password salt : List Nat) (iterations key_len : Nat) : List Nat :=
  let hash0 := sha256 (password ++ salt)
  let final := (List.range (iterations - 1)).foldl (fun h _ => sha256 h) hash0
  final.take (min key_len 32)

/-- A fixed stand-in digest function used to instantiate hypotheses about
`sha256` at concrete inputs. -/
def shaZero : List Nat → List Nat := fun _ => List.replicate 32 0

/-! ## Read path (archive_extract.c `sevenzip_extract`, archive_list.c `sevenzip_list`) -/

/-- The error codes of `include/7z_ffi.h` reachable from the read path. -/
inductive SevenZipErrorCode where
  | ok
  | errorOpenFile
  | errorInvalidArchive
  | errorMemory
  | errorExtract
  | errorInvalidParam
deriving DecidableEq

/-- The archive database handed back by the external LZMA SDK's
`SzArEx_Open` (`CSzArEx`), abstracted by its observable queries: file count,
UTF-16 name lookup (`SzArEx_GetFileNameUtf16`, returning the unit count
including the terminator and the units themselves), directory flag
(`SzArEx_IsDir`), per-file decoded bytes (`SzArEx_Extract`; `none` models a
codec failure), size, FILETIME presence/value and attribute presence/value
(for the listing). -/
structure ArchiveDb where
  numFiles : Nat
  nameLen : Nat → Nat
  nameUtf16 : Nat → List Nat
  isDir : Nat → Bool
  extractBytes : Nat → Option (List Nat)
  fileSize : Nat → Nat
  mtimeDef : Nat → Bool
  mtimeVal : Nat → Nat
  attribDef : Nat → Bool
  attribVal : Nat → Nat

/-- The environment a run of the read path observes: whether
`InFile_Open` succeeds, the `SzArEx_Open` result, and the outcome of each
directory creation, output `fopen` and full `fwrite` (keyed by path). -/
structure ExtractEnv where
  openOk : Bool
  db : Option ArchiveDb
  mkdirOk : List Nat → Bool
  fopenOk : List Nat → Bool
  fwriteOk : List Nat → Bool

/-- File-system operations `sevenzip_extract` performs. -/
inductive FsOp where
  | mkdirR (path : List Nat)
  | writeFile (path : List Nat) (data : List Nat)
deriving DecidableEq

/-- The UTF-16 → output-path byte conversion of the read path:
`(char)(temp[j] < 256 ? temp[j] : '?')` per unit, then C-string semantics
(the name ends at the first zero byte). -/
def utf16ToBytes (units : List Nat) : List Nat :=
  (units.map fun u => if u < 256 then u else 63).takeWhile fun b => b ≠ 0

/-- `build_output_path`: `output_dir`, the path separator, the file name. -/
def build_output_path (output_dir fname : List Nat) : List Nat :=
  output_dir ++ 47 :: fname

/-- The parent directory of a path (`strrchr(output_path, PATH_SEPARATOR)`
prefix), when a separator is present. -/
def parentOf (p : List Nat) : Option (List Nat) :=
  if p.contains 47 then
    some ((p.reverse.dropWhile fun b => b ≠ 47).drop 1).reverse
  else none

/-- One iteration of the extract loop (archive_extract.c:156-244) for file
index `i`, on state (error so far, operations so far, stopped flag). -/
def extractStep (env : ExtractEnv) (db : ArchiveDb) (od : List Nat)
    (st : SevenZipErrorCode × List FsOp × Bool) (i : Nat) :
    SevenZipErrorCode × List FsOp × Bool :=
  let (code, ops, stopped) := st
  if stopped then st
  else if db.nameLen i ≤ 1 then st
  else
    let fname := utf16ToBytes (db.nameUtf16 i)
    let path := build_output_path od fname
    if db.isDir i then (code, ops ++ [.mkdirR path], false)
    else
      match db.extractBytes i with
      | none => (.errorExtract, ops, true)
      | some data =>
        let ops := ops ++
          (match parentOf path with
           | some par => [FsOp.mkdirR par]
           | none => [])
        if !env.fopenOk path then (.errorOpenFile, ops, true)
        else
          let ops := ops ++ [.writeFile path data]
          if env.fwriteOk path then (code, ops, false)
          else (.errorExtract, ops, true)

/-- `sevenzip_extract` (archive_extract.c:90-256): parameter checks, archive
open, database open, output-directory creation, then the per-file extract
loop.  The `password` parameter is part of the C signature; the body never
reads it.  Returns the result code and the file-system operations
performed. -/
def sevenzip_extract (env : ExtractEnv)
    (archive_path output_dir : Option (List Nat))
    (password : Option (List Nat)) : SevenZipErrorCode × List FsOp :=
  match archive_path, output_dir with
  | some _, some od =>
    if !env.openOk then (.errorOpenFile, [])
    else
      match env.db with
      | none => (.errorInvalidArchive, [])
      | some db =>
        if !env.mkdirOk od then (.errorOpenFile, [.mkdirR od])
        else
          let st := (List.range db.numFiles).foldl
            (extractStep env db od) (.ok, [FsOp.mkdirR od], false)
          (st.1, st.2.1)
  | _, _ => (.errorInvalidParam, [])

/-- One listing entry: name bytes, size, FILETIME-to-Unix conversion
(0 when undefined), attributes (0 when undefined), directory flag. -/
structure SevenZipEntry where
  name : List Nat
  size : Nat
  modified_time : Nat
  attributes : Nat
  is_directory : Bool
deriving DecidableEq

/-- `sevenzip_list` (archive_list.c:13-133): opens the archive and the
database, then populates one entry per file.  The `password` parameter is
part of the C signature; the body never reads it. -/
def sevenzip_list (env : ExtractEnv) (archive_path : Option (List Nat))
    (password : Option (List Nat)) :
    SevenZipErrorCode × Option (List SevenZipEntry) :=
  match archive_path with
  | some _ =>
    if !env.openOk then (.errorOpenFile, none)
    else
      match env.db with
      | none => (.errorInvalidArchive, none)
      | some db =>
        let entries := (List.range db.numFiles).map fun i =>
          { name := if 1 < db.nameLen i then utf16ToBytes (db.nameUtf16 i) else []
            size := db.fileSize i
            modified_time :=
              if db.mtimeDef i then db.mtimeVal i / 10000000 - 11644473600 else 0
            attributes := if db.attribDef i then db.attribVal i else 0
            is_directory := db.isDir i : SevenZipEntry }
        (.ok, some entries)
  | none => (.errorInvalidParam, none)

/-- The Signature Header property of claim C2, stated over an archive image
`a` with packed stream `d` and Header Block `h`: magic bytes, version `0.4`,
`NextHeaderOffset = pack_size` at 12, `NextHeaderSize` at 20,
`NextHeaderCRC` at 28, `StartHeaderCRC` (bytes 8..11) equal to the CRC-32 of
the 20 tuple bytes at 12..31, and the packed stream and header at their
places. -/
def SigHeaderOk (d h a : List Nat) : Prop :=
  listSlice a 0 6 = k7zSignature ∧
  listSlice a 6 2 = [0, 4] ∧
  listSlice a 12 8 = le64 d.length ∧
  listSlice a 20 8 = le64 h.length ∧
  listSlice a 28 4 = le32 (crc32 h) ∧
  listSlice a 8 4 = le32 (crc32 (listSlice a 12 20)) ∧
  listSlice a 32 d.length = d ∧
  listSlice a (32 + d.length) h.length = h

theorem leNat_lt (l : List Nat) (h : ∀ b ∈ l, b < 256) :
    leNat l < 256 ^ l.length := by
  induction l with
  | nil => simp [leNat]
  | cons b bs ih =>
    have hb : b < 256 := h b (List.mem_cons_self _ _)
    have hbs : leNat bs < 256 ^ bs.length :=
      ih fun x hx => h x (List.mem_cons_of_mem _ hx)
    simp only [leNat, List.length_cons, pow_succ]
    calc b + 256 * leNat bs < 256 * (leNat bs + 1) := by omega
      _ ≤ 256 * 256 ^ bs.length := Nat.mul_le_mul_left _ hbs
      _ = 256 ^ bs.length * 256 := Nat.mul_comm _ _

/-- Decoding a list whose first byte announces exactly `extra.length ≤ 7`
additional bytes. -/
theorem ReadNumber_cons (b0 : Nat) (extra rest : List Nat)
    (hk : numExtraBytes b0 = extra.length) (h8 : extra.length ≠ 8) :
    ReadNumber (b0 :: (extra ++ rest)) =
      some (leNat extra + b0 % 2 ^ (7 - extra.length) * 2 ^ (8 * extra.length),
        extra.length + 1) := by
  simp only [ReadNumber, hk]
  rw [if_neg (by rw [List.length_append]; omega), if_neg h8, List.take_left]

/-- Decoding a list whose first byte announces eight additional bytes. -/
theorem ReadNumber_cons8 (b0 : Nat) (extra rest : List Nat)
    (hk : numExtraBytes b0 = extra.length) (h8 : extra.length = 8) :
    ReadNumber (b0 :: (extra ++ rest)) = some (leNat extra, 9) := by
  simp only [ReadNumber, hk]
  rw [if_neg (by rw [List.length_append]; omega), if_pos h8, List.take_left, h8]
  simp

theorem tsWriteNumber_eq_WriteNumber {v : Nat} (h : v < 2 ^ 28) :
    tsWriteNumber v = WriteNumber v := by
  unfold tsWriteNumber WriteNumber
  split_ifs <;> first | rfl | (exfalso; omega)

/-- A first byte in the half-open interval of prefix `k` announces exactly
`k` additional bytes. -/
theorem numExtraBytes_interval (b0 k : Nat) (hk : k ≤ 8)
    (hlo : 256 - 256 / 2 ^ k ≤ b0) (hhi : b0 < 256 - 128 / 2 ^ k) :
    numExtraBytes b0 = k := by
  unfold numExtraBytes
  interval_cases k <;> (try norm_num at hlo hhi) <;> split_ifs <;> omega

/-- The encoded length of `WriteNumber` is exactly `GetNumberSize`. -/
theorem WriteNumber_length (v : Nat) :
    (WriteNumber v).length = GetNumberSize v := by
  unfold WriteNumber GetNumberSize
  split_ifs <;> first | rfl | (exfalso; omega)

theorem WriteNumber_roundtrip (v : Nat) (hv : v < 2 ^ 64) (rest : List Nat) :
    ReadNumber (WriteNumber v ++ rest) = some (v, (WriteNumber v).length) := by
  by_cases h1 : v < 0x80
  · rw [WriteNumber, if_pos h1,
      show ([v] ++ rest) = v :: (([] : List Nat) ++ rest) from rfl,
      ReadNumber_cons v [] rest
        (by unfold numExtraBytes; rw [if_pos h1]; rfl) (by simp)]
    simp only [leNat, List.length_nil, List.length_singleton, Option.some.injEq,
      Prod.mk.injEq]
    (try norm_num) <;> omega
  by_cases h2 : v < 2 ^ 14
  · rw [WriteNumber, if_neg h1, if_pos h2, List.cons_append,
      ReadNumber_cons _ _ rest
        (by simp only [List.length_cons, List.length_nil]
            exact numExtraBytes_interval _ 1 (by omega) (by omega)
              (by omega))
        (by simp)]
    simp only [leNat, List.length_cons, List.length_nil, Option.some.injEq,
      Prod.mk.injEq]
    (try norm_num) <;> omega
  by_cases h3 : v < 2 ^ 21
  · rw [WriteNumber, if_neg h1, if_neg h2, if_pos h3, List.cons_append,
      ReadNumber_cons _ _ rest
        (by simp only [List.length_cons, List.length_nil]
            exact numExtraBytes_interval _ 2 (by omega) (by omega)
              (by omega))
        (by simp)]
    simp only [leNat, List.length_cons, List.length_nil, Option.some.injEq,
      Prod.mk.injEq]
    (try norm_num) <;> omega
  by_cases h4 : v < 2 ^ 28
  · rw [WriteNumber, if_neg h1, if_neg h2, if_neg h3, if_pos h4, List.cons_append,
      ReadNumber_cons _ _ rest
        (by simp only [List.length_cons, List.length_nil]
            exact numExtraBytes_interval _ 3 (by omega) (by omega)
              (by omega))
        (by simp)]
    simp only [leNat, List.length_cons, List.length_nil, Option.some.injEq,
      Prod.mk.injEq]
    (try norm_num) <;> omega
  by_cases h5 : v < 2 ^ 35
  · rw [WriteNumber, if_neg h1, if_neg h2, if_neg h3, if_neg h4, if_pos h5,
      List.cons_append,
      ReadNumber_cons _ _ rest
        (by simp only [List.length_cons, List.length_nil]
            exact numExtraBytes_interval _ 4 (by omega) (by omega)
              (by omega))
        (by simp)]
    simp only [leNat, List.length_cons, List.length_nil, Option.some.injEq,
      Prod.mk.injEq]
    (try norm_num) <;> omega
  by_cases h6 : v < 2 ^ 42
  · rw [WriteNumber, if_neg h1, if_neg h2, if_neg h3, if_neg h4, if_neg h5,
      if_pos h6, List.cons_append,
      ReadNumber_cons _ _ rest
        (by simp only [List.length_cons, List.length_nil]
            exact numExtraBytes_interval _ 5 (by omega) (by omega)
              (by omega))
        (by simp)]
    simp only [leNat, List.length_cons, List.length_nil, Option.some.injEq,
      Prod.mk.injEq]
    (try norm_num) <;> omega
  by_cases h7 : v < 2 ^ 49
  · rw [WriteNumber, if_neg h1, if_neg h2, if_neg h3, if_neg h4, if_neg h5,
      if_neg h6, if_pos h7, List.cons_append,
      ReadNumber_cons _ _ rest
        (by simp only [List.length_cons, List.length_nil]
            exact numExtraBytes_interval _ 6 (by omega) (by omega)
              (by omega))
        (by simp)]
    simp only [leNat, List.length_cons, List.length_nil, Option.some.injEq,
      Prod.mk.injEq]
    (try norm_num) <;> omega
  by_cases h8 : v < 2 ^ 56
  · rw [WriteNumber, if_neg h1, if_neg h2, if_neg h3, if_neg h4, if_neg h5,
      if_neg h6, if_neg h7, if_pos h8, List.cons_append,
      ReadNumber_cons _ _ rest
        (by simp only [List.length_cons, List.length_nil]
            exact numExtraBytes_interval _ 7 (by omega) (by omega)
              (by omega))
        (by simp)]
    simp only [leNat, List.length_cons, List.length_nil, Option.some.injEq,
      Prod.mk.injEq]
    (try norm_num) <;> omega
  · rw [WriteNumber, if_neg h1, if_neg h2, if_neg h3, if_neg h4, if_neg h5,
      if_neg h6, if_neg h7, if_neg h8, List.cons_append,
      ReadNumber_cons8 _ _ rest
        (by simp only [List.length_cons, List.length_nil]
            exact numExtraBytes_interval _ 8 (by omega) (by omega)
              (by omega))
        (by rfl)]
    simp only [leNat, List.length_cons, List.length_nil, Option.some.injEq,
      Prod.mk.injEq]
    (try norm_num) <;> omega

/-- The streaming encoder also round-trips through the spec decoder: for
values `≥ 2 ^ 28` its 9-byte form is a legal (though not minimal) encoding. -/
theorem tsWriteNumber_roundtrip (v : Nat) (hv : v < 2 ^ 64) (rest : List Nat) :
    ReadNumber (tsWriteNumber v ++ rest) = some (v, (tsWriteNumber v).length) := by
  by_cases h : v < 2 ^ 28
  · rw [tsWriteNumber_eq_WriteNumber h]
    exact WriteNumber_roundtrip v hv rest
  · rw [tsWriteNumber, if_neg (by omega), if_neg (by omega), if_neg (by omega),
      if_neg (by omega), List.cons_append,
      ReadNumber_cons8 _ _ rest
        (by simp only [List.length_cons, List.length_nil]
            exact numExtraBytes_interval _ 8 (by omega) (by omega)
              (by omega))
        (by rfl)]
    simp only [leNat, List.length_cons, List.length_nil, Option.some.injEq,
      Prod.mk.injEq]
    (try norm_num) <;> omega

/-- If a value fits in `7 * n` bits (with `n ≥ 1`) then `GetNumberSize`
returns at most `n`: the table of thresholds in `GetNumberSize` is the
bit-capacity table of the encoding lengths. -/
theorem GetNumberSize_le (v n : Nat) (h1 : 1 ≤ n) (hn : n ≤ 9)
    (h : v < 2 ^ (7 * n)) : GetNumberSize v ≤ n := by
  unfold GetNumberSize
  split_ifs <;> (try omega) <;>
    (by_contra hc
     push_neg at hc
     interval_cases n <;> omega)

theorem GetNumberSize_le_nine (v : Nat) : GetNumberSize v ≤ 9 := by
  unfold GetNumberSize; split_ifs <;> omega

theorem numExtraBytes_le (b0 : Nat) : numExtraBytes b0 ≤ 8 := by
  unfold numExtraBytes; split_ifs <;> omega

/-- Any byte list that a spec-conformant decoder consumes entirely while
producing `v` is at least as long as `WriteNumber v`'s output: `WriteNumber`
emits a minimal-length legal encoding. -/
theorem WriteNumber_minimal (v : Nat) (bs : List Nat)
    (hbytes : ∀ b ∈ bs, b < 256)
    (hdec : ReadNumber bs = some (v, bs.length)) :
    (WriteNumber v).length ≤ bs.length := by
  match bs with
  | [] => simp [ReadNumber] at hdec
  | b0 :: rest =>
    rw [WriteNumber_length]
    simp only [List.length_cons]
    simp only [ReadNumber] at hdec
    by_cases hl : rest.length < numExtraBytes b0
    · rw [if_pos hl] at hdec; exact absurd hdec (by simp)
    rw [if_neg hl] at hdec
    simp only [Option.some.injEq, Prod.mk.injEq, List.length_cons] at hdec
    obtain ⟨hval, hcount⟩ := hdec
    have hk8 : numExtraBytes b0 ≤ 8 := numExtraBytes_le b0
    have hrest : rest.length = numExtraBytes b0 := by omega
    rw [List.take_of_length_le (le_of_eq hrest)] at hval
    have hle : leNat rest < 256 ^ rest.length :=
      leNat_lt rest fun b hb => hbytes b (List.mem_cons_of_mem _ hb)
    by_cases h8 : numExtraBytes b0 = 8
    · have := GetNumberSize_le_nine v
      omega
    · rw [if_neg h8] at hval
      have hhigh : b0 % 2 ^ (7 - numExtraBytes b0) < 2 ^ (7 - numExtraBytes b0) :=
        Nat.mod_lt _ (Nat.pos_pow_of_pos _ (by omega))
      have h256 : (256 : Nat) ^ rest.length = 2 ^ (8 * numExtraBytes b0) := by
        rw [hrest, show (256 : Nat) = 2 ^ 8 from rfl, ← pow_mul]
      rw [h256] at hle
      have hcap : v < 2 ^ (7 * (numExtraBytes b0 + 1)) := by
        calc v = leNat rest + b0 % 2 ^ (7 - numExtraBytes b0) *
              2 ^ (8 * numExtraBytes b0) := hval.symm
          _ < 2 ^ (8 * numExtraBytes b0) +
              (2 ^ (7 - numExtraBytes b0) - 1) * 2 ^ (8 * numExtraBytes b0) := by
              have := Nat.mul_le_mul_right (2 ^ (8 * numExtraBytes b0))
                (Nat.le_sub_one_of_lt hhigh)
              omega
          _ = 2 ^ (7 - numExtraBytes b0) * 2 ^ (8 * numExtraBytes b0) := by
              rw [Nat.sub_one_mul]
              have hX : 2 ^ (8 * numExtraBytes b0) ≤
                  2 ^ (7 - numExtraBytes b0) * 2 ^ (8 * numExtraBytes b0) :=
                Nat.le_mul_of_pos_left _ (by positivity)
              omega
          _ = 2 ^ (7 - numExtraBytes b0 + 8 * numExtraBytes b0) :=
              (pow_add 2 _ _).symm
          _ ≤ 2 ^ (7 * (numExtraBytes b0 + 1)) := by
              apply Nat.pow_le_pow_right (by omega); omega
      have := GetNumberSize_le v (numExtraBytes b0 + 1) (by omega) (by omega) hcap
      omega

/-- Sanity check of the CRC-32 model against the standard check value:
`CRC32("123456789") = 0xCBF43926`. -/
theorem crc32_check_value :
    crc32 [0x31, 0x32, 0x33, 0x34, 0x35, 0x36, 0x37, 0x38, 0x39] = 0xCBF43926 := by
  decide

/-- **C1** (corrected).  For every `v < 2 ^ 64`: the spec decoder applied to
either encoder's output returns `(v, encoded length)` after consuming exactly
the encoded bytes (also with trailing bytes present); `WriteNumber`'s length
equals `GetNumberSize v` and is minimal among all legal encodings of `v`;
and below `2 ^ 28` the true-streaming `write_number` agrees with
`WriteNumber`.  (The original claim's minimality assertion fails for
`write_number` at and above `2 ^ 28`; see the counterexample.) -/
theorem claim_C1 (v : Nat) (hv : v < 2 ^ 64) (rest : List Nat) :
    ReadNumber (WriteNumber v ++ rest) = some (v, (WriteNumber v).length) ∧
    ReadNumber (tsWriteNumber v ++ rest) = some (v, (tsWriteNumber v).length) ∧
    (WriteNumber v).length = GetNumberSize v ∧
    (∀ bs, (∀ b ∈ bs, b < 256) → ReadNumber bs = some (v, bs.length) →
      (WriteNumber v).length ≤ bs.length) ∧
    (v < 2 ^ 28 → tsWriteNumber v = WriteNumber v) :=
  ⟨WriteNumber_roundtrip v hv rest, tsWriteNumber_roundtrip v hv rest,
    WriteNumber_length v,
    fun bs hb hd => WriteNumber_minimal v bs hb hd,
    fun h => tsWriteNumber_eq_WriteNumber h⟩

/-- Witness for C1 at `v = 300`, `rest = [0]`. -/
theorem claim_C1_witness :
    (300 : Nat) < 2 ^ 64 ∧
    (ReadNumber (WriteNumber 300 ++ [0]) = some (300, (WriteNumber 300).length) ∧
     ReadNumber (tsWriteNumber 300 ++ [0]) =
       some (300, (tsWriteNumber 300).length) ∧
     (WriteNumber 300).length = GetNumberSize 300 ∧
     (∀ bs, (∀ b ∈ bs, b < 256) → ReadNumber bs = some (300, bs.length) →
       (WriteNumber 300).length ≤ bs.length) ∧
     (300 < 2 ^ 28 → tsWriteNumber 300 = WriteNumber 300)) :=
  ⟨by norm_num, claim_C1 300 (by norm_num) [0]⟩

/-- **C1 counterexample**: at `v = 2 ^ 28` the true-streaming `write_number`
emits 9 bytes, while the minimal legal encoding (which `WriteNumber` emits
and the spec decoder accepts) has 5 bytes — the `k` it chooses is not
minimal, refuting the claim as stated for that encoder. -/
theorem claim_C1_counterexample :
    (tsWriteNumber (2 ^ 28)).length = 9 ∧ GetNumberSize (2 ^ 28) = 5 ∧
    ReadNumber (WriteNumber (2 ^ 28)) = some (2 ^ 28, 5) := by
  decide

/-! ## Patch and slice algebra -/

theorem patchBytes_mid (pre mid post r : List Nat) (h : r.length = mid.length) :
    patchBytes (pre ++ (mid ++ post)) pre.length r = pre ++ (r ++ post) := by
  unfold patchBytes
  rw [List.take_left, h,
    show pre.length + mid.length = (pre ++ mid).length from
      (List.length_append _ _).symm,
    show pre ++ (mid ++ post) = (pre ++ mid) ++ post from
      (List.append_assoc _ _ _).symm,
    List.drop_left]
  exact List.append_assoc pre r post

theorem patchBytes_at (A B C T : List Nat) (pos : Nat) (hA : A.length = pos)
    (hT : T.length = B.length) :
    patchBytes (A ++ (B ++ C)) pos T = A ++ (T ++ C) := by
  rw [← hA]; exact patchBytes_mid A B C T hT

theorem listSlice_mid (pre mid post : List Nat) :
    listSlice (pre ++ (mid ++ post)) pre.length mid.length = mid := by
  unfold listSlice
  rw [List.drop_left, List.take_left]

theorem listSlice_at (A B C : List Nat) (pos len : Nat) (hA : A.length = pos)
    (hB : B.length = len) :
    listSlice (A ++ (B ++ C)) pos len = B := by
  rw [← hA, ← hB]; exact listSlice_mid A B C

/-- The patched file image of `write_7z_archive` (archive_create.c) laid out
flat: magic, version, StartHeaderCRC, tuple, packed stream, header. -/
theorem write7zArchive_eq (files : List SevenZFile) (useCopy : Bool)
    (propByte : Nat) (packData : List Nat) :
    write7zArchive files useCopy propByte packData =
      k7zSignature ++ [0, 4] ++
      le32 (crc32 (le64 packData.length ++
        le64 (buildHeader files useCopy propByte packData.length).length ++
        le32 (crc32 (buildHeader files useCopy propByte packData.length)))) ++
      (le64 packData.length ++
        le64 (buildHeader files useCopy propByte packData.length).length ++
        le32 (crc32 (buildHeader files useCopy propByte packData.length))) ++
      packData ++ buildHeader files useCopy propByte packData.length := by
  simp only [write7zArchive]
  set H := buildHeader files useCopy propByte packData.length with hH
  set T := le64 packData.length ++ le64 H.length ++ le32 (crc32 H) with hT
  have e1 : k7zSignature ++ [0, 4] ++ le32 0 ++ (le64 0 ++ le64 0 ++ le32 0) ++
      packData ++ H =
      (k7zSignature ++ [0, 4] ++ le32 0) ++
        ((le64 0 ++ le64 0 ++ le32 0) ++ (packData ++ H)) := by simp
  rw [e1, patchBytes_at _ _ _ _ 12 (by simp [k7zSignature, le32])
    (by rw [hT]; simp [le64, le32])]
  have e2 : (k7zSignature ++ [0, 4] ++ le32 0) ++ (T ++ (packData ++ H)) =
      (k7zSignature ++ [0, 4]) ++ (le32 0 ++ (T ++ (packData ++ H))) := by simp
  rw [e2, patchBytes_at _ _ _ _ 8 (by simp [k7zSignature]) (by simp [le32])]
  simp

/-- The patched file image of the true-streaming `write_7z_archive`
(archive_create_true_streaming.c) laid out flat: it coincides with the
single-file writer's signature-header layout. -/
theorem tsWrite7zArchive_eq (data header : List Nat) :
    tsWrite7zArchive data header =
      k7zSignature ++ [0, 4] ++
      le32 (crc32 (le64 data.length ++ le64 header.length ++
        le32 (crc32 header))) ++
      (le64 data.length ++ le64 header.length ++ le32 (crc32 header)) ++
      data ++ header := by
  simp only [tsWrite7zArchive]
  have e1 : k7zSignature ++ [0, 4] ++ le32 0 ++ le64 data.length ++
      (le64 0 ++ le32 0) ++ data ++ header =
      (k7zSignature ++ [0, 4] ++ le32 0 ++ le64 data.length) ++
        ((le64 0 ++ le32 0) ++ (data ++ header)) := by simp
  rw [e1, patchBytes_at _ _ _ _ 20 (by simp [k7zSignature, le32, le64])
    (by simp [le64, le32])]
  have e2 : (k7zSignature ++ [0, 4] ++ le32 0 ++ le64 data.length) ++
      ((le64 header.length ++ le32 (crc32 header)) ++ (data ++ header)) =
      (k7zSignature ++ [0, 4]) ++
        (le32 0 ++ (le64 data.length ++ le64 header.length ++
          le32 (crc32 header) ++ (data ++ header))) := by simp
  rw [e2, patchBytes_at _ _ _ _ 8 (by simp [k7zSignature]) (by simp [le32])]
  simp

/-- Slices of an eight-segment concatenation at the segment boundaries,
plus the combined `p4 ++ p5 ++ p6` middle slice. -/
theorem slices8 (p1 p2 p3 p4 p5 p6 p7 p8 : List Nat) :
    listSlice (p1 ++ p2 ++ p3 ++ p4 ++ p5 ++ p6 ++ p7 ++ p8) 0 p1.length = p1 ∧
    listSlice (p1 ++ p2 ++ p3 ++ p4 ++ p5 ++ p6 ++ p7 ++ p8) p1.length
      p2.length = p2 ∧
    listSlice (p1 ++ p2 ++ p3 ++ p4 ++ p5 ++ p6 ++ p7 ++ p8)
      (p1.length + p2.length) p3.length = p3 ∧
    listSlice (p1 ++ p2 ++ p3 ++ p4 ++ p5 ++ p6 ++ p7 ++ p8)
      (p1.length + p2.length + p3.length) p4.length = p4 ∧
    listSlice (p1 ++ p2 ++ p3 ++ p4 ++ p5 ++ p6 ++ p7 ++ p8)
      (p1.length + p2.length + p3.length + p4.length) p5.length = p5 ∧
    listSlice (p1 ++ p2 ++ p3 ++ p4 ++ p5 ++ p6 ++ p7 ++ p8)
      (p1.length + p2.length + p3.length + p4.length + p5.length)
      p6.length = p6 ∧
    listSlice (p1 ++ p2 ++ p3 ++ p4 ++ p5 ++ p6 ++ p7 ++ p8)
      (p1.length + p2.length + p3.length + p4.length + p5.length + p6.length)
      p7.length = p7 ∧
    listSlice (p1 ++ p2 ++ p3 ++ p4 ++ p5 ++ p6 ++ p7 ++ p8)
      (p1.length + p2.length + p3.length + p4.length + p5.length + p6.length +
        p7.length) p8.length = p8 ∧
    listSlice (p1 ++ p2 ++ p3 ++ p4 ++ p5 ++ p6 ++ p7 ++ p8)
      (p1.length + p2.length + p3.length) (p4.length + p5.length + p6.length) =
      p4 ++ p5 ++ p6 := by
  refine ⟨?_, ?_, ?_, ?_, ?_, ?_, ?_, ?_, ?_⟩
  · rw [show p1 ++ p2 ++ p3 ++ p4 ++ p5 ++ p6 ++ p7 ++ p8 =
      ([] : List Nat) ++ (p1 ++ (p2 ++ p3 ++ p4 ++ p5 ++ p6 ++ p7 ++ p8))
      from by simp]
    exact listSlice_at _ _ _ _ _ (by simp <;> omega) rfl
  · rw [show p1 ++ p2 ++ p3 ++ p4 ++ p5 ++ p6 ++ p7 ++ p8 =
      p1 ++ (p2 ++ (p3 ++ p4 ++ p5 ++ p6 ++ p7 ++ p8)) from by simp]
    exact listSlice_at _ _ _ _ _ rfl rfl
  · rw [show p1 ++ p2 ++ p3 ++ p4 ++ p5 ++ p6 ++ p7 ++ p8 =
      (p1 ++ p2) ++ (p3 ++ (p4 ++ p5 ++ p6 ++ p7 ++ p8)) from by simp]
    exact listSlice_at _ _ _ _ _ (by simp <;> omega) rfl
  · rw [show p1 ++ p2 ++ p3 ++ p4 ++ p5 ++ p6 ++ p7 ++ p8 =
      (p1 ++ p2 ++ p3) ++ (p4 ++ (p5 ++ p6 ++ p7 ++ p8)) from by simp]
    exact listSlice_at _ _ _ _ _ (by simp <;> omega) rfl
  · rw [show p1 ++ p2 ++ p3 ++ p4 ++ p5 ++ p6 ++ p7 ++ p8 =
      (p1 ++ p2 ++ p3 ++ p4) ++ (p5 ++ (p6 ++ p7 ++ p8)) from by simp]
    exact listSlice_at _ _ _ _ _ (by simp <;> omega) rfl
  · rw [show p1 ++ p2 ++ p3 ++ p4 ++ p5 ++ p6 ++ p7 ++ p8 =
      (p1 ++ p2 ++ p3 ++ p4 ++ p5) ++ (p6 ++ (p7 ++ p8)) from by simp]
    exact listSlice_at _ _ _ _ _ (by simp <;> omega) rfl
  · rw [show p1 ++ p2 ++ p3 ++ p4 ++ p5 ++ p6 ++ p7 ++ p8 =
      (p1 ++ p2 ++ p3 ++ p4 ++ p5 ++ p6) ++ (p7 ++ p8) from by simp]
    exact listSlice_at _ _ _ _ _ (by simp <;> omega) rfl
  · rw [show p1 ++ p2 ++ p3 ++ p4 ++ p5 ++ p6 ++ p7 ++ p8 =
      (p1 ++ p2 ++ p3 ++ p4 ++ p5 ++ p6 ++ p7) ++ (p8 ++ ([] : List Nat))
      from by simp]
    exact (listSlice_at _ _ _ _ _ (by simp <;> omega) rfl).trans (by simp)
  · rw [show p1 ++ p2 ++ p3 ++ p4 ++ p5 ++ p6 ++ p7 ++ p8 =
      (p1 ++ p2 ++ p3) ++ ((p4 ++ p5 ++ p6) ++ (p7 ++ p8)) from by simp]
    exact listSlice_at _ _ _ _ _ (by simp <;> omega) (by simp <;> omega)

theorem le32_length (v : Nat) : (le32 v).length = 4 := rfl

theorem le64_length (v : Nat) : (le64 v).length = 8 := rfl

theorem k7zSignature_length : k7zSignature.length = 6 := rfl

/-- Any archive image in the canonical patched layout satisfies the C2
Signature Header property. -/
theorem sigHeaderSlices (d h a : List Nat)
    (ha : a = k7zSignature ++ [0, 4] ++
      le32 (crc32 (le64 d.length ++ le64 h.length ++ le32 (crc32 h))) ++
      (le64 d.length ++ le64 h.length ++ le32 (crc32 h)) ++ d ++ h) :
    SigHeaderOk d h a := by
  subst ha
  set T := le64 d.length ++ le64 h.length ++ le32 (crc32 h) with hTdef
  have h20 : listSlice
      (k7zSignature ++ [0, 4] ++ le32 (crc32 T) ++ T ++ d ++ h) 12 20 = T := by
    rw [show k7zSignature ++ [0, 4] ++ le32 (crc32 T) ++ T ++ d ++ h =
      (k7zSignature ++ [0, 4] ++ le32 (crc32 T)) ++ (T ++ (d ++ h)) from by simp]
    exact listSlice_at _ _ _ _ _
      (by simp [le32_length, k7zSignature_length] <;> omega)
      (by rw [hTdef]; simp [le32_length, le64_length] <;> omega)
  refine ⟨?_, ?_, ?_, ?_, ?_, ?_, ?_, ?_⟩
  · rw [show k7zSignature ++ [0, 4] ++ le32 (crc32 T) ++ T ++ d ++ h =
      ([] : List Nat) ++ (k7zSignature ++
        ([0, 4] ++ le32 (crc32 T) ++ T ++ d ++ h)) from by simp]
    exact listSlice_at _ _ _ _ _ rfl k7zSignature_length
  · rw [show k7zSignature ++ [0, 4] ++ le32 (crc32 T) ++ T ++ d ++ h =
      k7zSignature ++ ([0, 4] ++ (le32 (crc32 T) ++ T ++ d ++ h)) from by simp]
    exact listSlice_at _ _ _ _ _ k7zSignature_length rfl
  · rw [show k7zSignature ++ [0, 4] ++ le32 (crc32 T) ++ T ++ d ++ h =
      (k7zSignature ++ [0, 4] ++ le32 (crc32 T)) ++
        (le64 d.length ++ (le64 h.length ++ le32 (crc32 h) ++ d ++ h))
      from by rw [hTdef]; simp]
    exact listSlice_at _ _ _ _ _
      (by simp [le32_length, k7zSignature_length] <;> omega) (le64_length _)
  · rw [show k7zSignature ++ [0, 4] ++ le32 (crc32 T) ++ T ++ d ++ h =
      (k7zSignature ++ [0, 4] ++ le32 (crc32 T) ++ le64 d.length) ++
        (le64 h.length ++ (le32 (crc32 h) ++ d ++ h))
      from by rw [hTdef]; simp]
    exact listSlice_at _ _ _ _ _
      (by simp [le32_length, le64_length, k7zSignature_length] <;> omega)
      (le64_length _)
  · rw [show k7zSignature ++ [0, 4] ++ le32 (crc32 T) ++ T ++ d ++ h =
      (k7zSignature ++ [0, 4] ++ le32 (crc32 T) ++ le64 d.length ++
        le64 h.length) ++ (le32 (crc32 h) ++ (d ++ h))
      from by rw [hTdef]; simp]
    exact listSlice_at _ _ _ _ _
      (by simp [le32_length, le64_length, k7zSignature_length] <;> omega)
      (le32_length _)
  · rw [h20]
    rw [show k7zSignature ++ [0, 4] ++ le32 (crc32 T) ++ T ++ d ++ h =
      (k7zSignature ++ [0, 4]) ++ (le32 (crc32 T) ++ (T ++ d ++ h))
      from by simp]
    exact listSlice_at _ _ _ _ _
      (by simp [k7zSignature_length] <;> omega) (le32_length _)
  · rw [show k7zSignature ++ [0, 4] ++ le32 (crc32 T) ++ T ++ d ++ h =
      (k7zSignature ++ [0, 4] ++ le32 (crc32 T) ++ T) ++ (d ++ h)
      from by simp]
    exact listSlice_at _ _ _ _ _
      (by rw [hTdef]
          simp [le32_length, le64_length, k7zSignature_length] <;> omega) rfl
  · rw [show k7zSignature ++ [0, 4] ++ le32 (crc32 T) ++ T ++ d ++ h =
      (k7zSignature ++ [0, 4] ++ le32 (crc32 T) ++ T ++ d) ++
        (h ++ ([] : List Nat)) from by simp]
    exact (listSlice_at _ _ _ _ _
      (by rw [hTdef]
          simp [le32_length, le64_length, k7zSignature_length] <;> omega)
      rfl).trans (by simp)

/-- **C2** (confirmed).  For both writers (`write_7z_archive` in
archive_create.c and in archive_create_true_streaming.c), the finished
archive's 32-byte Signature Header holds the magic `37 7A BC AF 27 1C`,
version bytes 0 and 4, `NextHeaderOffset = pack_size` (bytes 12..19, the
Header Block's offset from the end of the Signature Header),
`NextHeaderSize = |header|` (bytes 20..27), `NextHeaderCRC = CRC32(header)`
(bytes 28..31), and `StartHeaderCRC` (bytes 8..11) equal to the CRC-32 of
the 20 tuple bytes at offsets 12..31.  The hypothesis mirrors the
single-file writer's success condition (header fits its 64 KiB buffer). -/
theorem claim_C2 (files : List SevenZFile) (useCopy : Bool) (propByte : Nat)
    (packData tsData tsHeader : List Nat)
    (hcap : (buildHeader files useCopy propByte packData.length).length ≤ 65536) :
    SigHeaderOk packData (buildHeader files useCopy propByte packData.length)
      (write7zArchive files useCopy propByte packData) ∧
    SigHeaderOk tsData tsHeader (tsWrite7zArchive tsData tsHeader) :=
  ⟨sigHeaderSlices _ _ _ (write7zArchive_eq files useCopy propByte packData),
   sigHeaderSlices _ _ _ (tsWrite7zArchive_eq tsData tsHeader)⟩

/-- Witness for C2 at the empty file list and empty streams. -/
theorem claim_C2_witness :
    (buildHeader [] true 0 ([] : List Nat).length).length ≤ 65536 ∧
    (SigHeaderOk [] (buildHeader [] true 0 ([] : List Nat).length)
        (write7zArchive [] true 0 []) ∧
     SigHeaderOk [] [] (tsWrite7zArchive [] [])) :=
  ⟨by decide, claim_C2 [] true 0 [] [] [] (by decide)⟩

/-! ## C3: the SubStreamsInfo 0x09 size group -/

/-- The bounded size-writing loop emits the first `w` substream sizes. -/
theorem sizesLoop_eq (files : List SevenZFile) (w : Nat) :
    sizesLoop files w = ((subStreamSizes files).take w).bind WriteNumber := by
  induction files generalizing w with
  | nil => cases w <;> simp [sizesLoop, subStreamSizes, nonDirFiles]
  | cons f fs ih =>
    cases w with
    | zero => simp [sizesLoop]
    | succ w =>
      by_cases hdir : f.is_dir
      · simp only [sizesLoop, if_pos hdir]
        rw [ih]
        simp [subStreamSizes, nonDirFiles, hdir]
      · simp only [sizesLoop, if_neg hdir]
        rw [ih]
        simp [subStreamSizes, nonDirFiles, hdir]

/-- The true-streaming size loop over `init ++ [f]`: every substream size of
`init` is written; the final entry's size is written only when it is a
substream and the `lastIsDir` flag is set. -/
theorem tsSizesLoop_concat (b : Bool) (init : List SevenZFile) (f : SevenZFile) :
    tsSizesLoop b (init ++ [f]) =
      (tsStreamSizes init).bind tsWriteNumber ++
      (if tsIsStream f && b then tsWriteNumber f.data.length else []) := by
  induction init with
  | nil => simp [tsSizesLoop, tsStreamSizes]
  | cons g gs ih =>
    simp only [List.cons_append, tsSizesLoop, List.isEmpty_eq_true,
      List.append_eq_nil, List.append_eq]
    rw [ih]
    by_cases hg : tsIsStream g = true
    · simp [tsStreamSizes, hg]
    · simp [tsStreamSizes, hg]

theorem tsStreamSizes_concat (init : List SevenZFile) (f : SevenZFile) :
    tsStreamSizes (init ++ [f]) =
      tsStreamSizes init ++ (if tsIsStream f then [f.data.length] else []) := by
  by_cases h : tsIsStream f = true <;>
    simp [tsStreamSizes, List.filter_append, h]

/-- **C3** (corrected).  In `write_7z_archive` of archive_create.c (and the
identical loop in archive_create_multivolume.c's `build_7z_header`), the
0x09 size group — present exactly when the folder has `N > 1` substreams —
holds the varints of every substream size except the last, in file-list
order, i.e. exactly `N - 1` varints.  The true-streaming writer instead
omits the last substream's size only when that substream is the archive's
final list entry; when the list ends in a directory (or zero-byte file) it
writes all `N` sizes (see the counterexample). -/
theorem claim_C3 (files : List SevenZFile) :
    subSizesGroup files =
      (if 1 < numFiles files then
        0x09 :: ((subStreamSizes files).dropLast.bind WriteNumber)
       else []) ∧
    (subStreamSizes files).dropLast.length = numFiles files - 1 ∧
    tsSubSizesGroup files =
      (if 1 < tsStreamCount files then
        0x09 :: ((if tsLastIsStream files then (tsStreamSizes files).dropLast
                  else tsStreamSizes files).bind tsWriteNumber)
       else []) := by
  refine ⟨?_, ?_, ?_⟩
  · unfold subSizesGroup
    by_cases h : 1 < numFiles files
    · rw [if_pos h, if_pos h, sizesLoop_eq, List.dropLast_eq_take]
      have : (subStreamSizes files).length = numFiles files := by
        simp [subStreamSizes, numFiles]
      rw [this]
    · rw [if_neg h, if_neg h]
  · rw [List.length_dropLast]
    simp [subStreamSizes, numFiles]
  · unfold tsSubSizesGroup
    by_cases h : 1 < tsStreamCount files
    · rw [if_pos h, if_pos h]
      rcases List.eq_nil_or_concat' files with hnil | ⟨init, f, hsplit⟩
      · subst hnil; simp [tsStreamCount] at h
      · subst hsplit
        rw [tsSizesLoop_concat]
        have hlast : (init ++ [f]).getLastD default = f :=
          List.getLastD_concat _ _ _
        rw [hlast]
        have hls : tsLastIsStream (init ++ [f]) = tsIsStream f := by
          simp [tsLastIsStream, hlast]
        rw [hls, tsStreamSizes_concat]
        by_cases hf : tsIsStream f = true
        · have hdf : f.is_dir = false := by
            cases hdd : f.is_dir
            · rfl
            · exfalso; simp [tsIsStream, hdd] at hf
          simp [hf, hdf, List.dropLast_concat]
        · have hf' : tsIsStream f = false := by
            cases htf : tsIsStream f
            · rfl
            · exact absurd htf hf
          simp [hf']
    · rw [if_neg h, if_neg h]

/-- **C3 counterexample**: a list of two payload files followed by a
directory.  The folder has `N = 2` substreams, but the true-streaming
writer's 0x09 group holds both sizes (`[0x09, 5, 7]`), i.e. `N` varints
including the last substream's size — not the claimed `N - 1`. -/
theorem claim_C3_counterexample :
    tsStreamCount [⟨[97], [1, 1, 1, 1, 1], 0, 0, false⟩,
      ⟨[98], [1, 1, 1, 1, 1, 1, 1], 0, 0, false⟩,
      ⟨[100], [], 0, 0, true⟩] = 2 ∧
    tsSubSizesGroup [⟨[97], [1, 1, 1, 1, 1], 0, 0, false⟩,
      ⟨[98], [1, 1, 1, 1, 1, 1, 1], 0, 0, false⟩,
      ⟨[100], [], 0, 0, true⟩] = [0x09, 5, 7] := by
  decide

/-! ## C4: the EmptyStream bit mask -/

theorem getD_replicate_zero (k j : Nat) :
    (List.replicate k (0 : Nat)).getD j 0 = 0 := by
  induction k generalizing j with
  | zero => simp
  | succ k ih =>
    cases j with
    | zero => simp [List.replicate]
    | succ j => simpa [List.replicate] using ih j

theorem setDirBit_length (mask : List Nat) (i : Nat) :
    (setDirBit mask i).length = mask.length := by
  simp [setDirBit]

theorem setDirBit_getD_self (mask : List Nat) (i : Nat) (h : i / 8 < mask.length) :
    (setDirBit mask i).getD (i / 8) 0 = mask.getD (i / 8) 0 ||| 2 ^ (7 - i % 8) := by
  unfold setDirBit
  rw [List.getD_eq_getElem?_getD, List.getElem?_set_self h, Option.getD_some]

theorem setDirBit_getD_ne (mask : List Nat) (i j : Nat) (h : i / 8 ≠ j) :
    (setDirBit mask i).getD j 0 = mask.getD j 0 := by
  unfold setDirBit
  rw [List.getD_eq_getElem?_getD, List.getElem?_set_ne h,
    ← List.getD_eq_getElem?_getD]

/-- Invariant of the EmptyStream mask fold: after processing the first `m`
entries, the mask keeps its byte count, and bit `7 - r` of byte `j`
(MSB-first) is set exactly for the directory entries among the processed
indices `8 j + r`. -/
theorem dirMaskAux_bit (files : List SevenZFile) (m : Nat)
    (hm : m ≤ files.length) :
    (((List.range m).foldl
        (fun mask i => if (files.getD i default).is_dir then setDirBit mask i
          else mask)
        (List.replicate ((files.length + 7) / 8) 0)).length =
      (files.length + 7) / 8) ∧
    (∀ j r, r < 8 →
      Nat.testBit
        (((List.range m).foldl
          (fun mask i => if (files.getD i default).is_dir then setDirBit mask i
            else mask)
          (List.replicate ((files.length + 7) / 8) 0)).getD j 0) (7 - r) =
        (decide (8 * j + r < m) && (files.getD (8 * j + r) default).is_dir)) := by
  induction m with
  | zero =>
    refine ⟨by simp, fun j r hr => ?_⟩
    simp [getD_replicate_zero]
  | succ m ih =>
    obtain ⟨ihlen, ihbit⟩ := ih (by omega)
    simp only [List.range_succ, List.foldl_append, List.foldl_cons,
      List.foldl_nil]
    by_cases hdir : (files.getD m default).is_dir
    · rw [if_pos hdir]
      refine ⟨?_, fun j r hr => ?_⟩
      · rw [setDirBit_length, ihlen]
      · by_cases hj : j = m / 8
        · subst hj
          rw [setDirBit_getD_self _ _ (by rw [ihlen]; omega), Nat.testBit_lor]
          by_cases hrm : r = m % 8
          · subst hrm
            rw [Nat.testBit_two_pow_self]
            have hjm : 8 * (m / 8) + m % 8 = m := Nat.div_add_mod m 8
            rw [hjm, hdir]
            simp
          · rw [Nat.testBit_two_pow_of_ne (by omega : 7 - m % 8 ≠ 7 - r)]
            rw [Bool.or_false, ihbit _ r hr]
            have hne : 8 * (m / 8) + r ≠ m := by
              intro he; exact hrm (by omega)
            congr 1
            exact decide_eq_decide.mpr (by omega)
        · rw [setDirBit_getD_ne _ _ _ (fun h => hj h.symm), ihbit j r hr]
          have hne : 8 * j + r ≠ m := by
            intro he; exact hj (by omega)
          congr 1
          exact decide_eq_decide.mpr (by omega)
    · rw [if_neg hdir]
      refine ⟨ihlen, fun j r hr => ?_⟩
      rw [ihbit j r hr]
      by_cases he : 8 * j + r = m
      · rw [he]
        have hdf : (files.getD m default).is_dir = false := by
          cases hdd : (files.getD m default).is_dir
          · rfl
          · exact absurd hdd hdir
        rw [hdf]
        simp
      · congr 1
        exact decide_eq_decide.mpr (by omega)

/-- **C4** (corrected).  In both writers' FilesInfo EmptyStream property the
bit for entry `i` (MSB-first within each byte) is set if and only if entry
`i` is a DIRECTORY — a zero-byte regular file does NOT get its bit set, and
the whole 0x0E group is omitted when there are no directories (contrary to
the claim's "directories and zero-byte files"; see the counterexample). -/
theorem claim_C4 (files : List SevenZFile) (i : Nat) (hi : i < files.length) :
    emptyStreamBit files i = (files.getD i default).is_dir ∧
    (hasDirs files = false → emptyStreamGroup files = []) := by
  constructor
  · unfold emptyStreamBit dirMask
    obtain ⟨-, hbit⟩ := dirMaskAux_bit files files.length le_rfl
    have := hbit (i / 8) (i % 8) (Nat.mod_lt _ (by omega))
    rw [Nat.div_add_mod i 8] at this
    rw [this]
    simp [hi]
  · intro h
    unfold emptyStreamGroup
    rw [if_neg (by simp [h])]

/-- Witness for C4 at a one-directory list, `i = 0`. -/
theorem claim_C4_witness :
    0 < ([⟨[100], [], 0, 0, true⟩] : List SevenZFile).length ∧
    (emptyStreamBit [⟨[100], [], 0, 0, true⟩] 0 =
      (([⟨[100], [], 0, 0, true⟩] : List SevenZFile).getD 0 default).is_dir ∧
     (hasDirs [⟨[100], [], 0, 0, true⟩] = false →
      emptyStreamGroup [⟨[100], [], 0, 0, true⟩] = [])) :=
  ⟨by decide, claim_C4 [⟨[100], [], 0, 0, true⟩] 0 (by decide)⟩

/-- **C4 counterexample**: a directory followed by a zero-byte regular file.
Entry 1 is a regular file of size 0, so the claim demands its EmptyStream
bit be set; the writers emit mask byte `0x80` (only the directory's bit),
and entry 1's bit is clear. -/
theorem claim_C4_counterexample :
    emptyStreamBit [⟨[100], [], 0, 0, true⟩, ⟨[101], [], 0, 0, false⟩] 1 =
      false ∧
    (⟨[101], [], 0, 0, false⟩ : SevenZFile).is_dir = false ∧
    (⟨[101], [], 0, 0, false⟩ : SevenZFile).data.length = 0 ∧
    emptyStreamGroup [⟨[100], [], 0, 0, true⟩, ⟨[101], [], 0, 0, false⟩] =
      [0x0E, 1, 0x80] := by
  decide

/-! ## C5: the incompressibility heuristic -/

/-- **C5** (corrected).  The incompressibility judgment of both cited
implementations: data is judged incompressible exactly when it is at least
1024 bytes long AND the count of frequent byte values is AT LEAST the
implementation's cutoff — 220 in archive_create.c (the claim's "exceeds
220" is off by one: a count of exactly 220 is already incompressible) and
200, not 220, in archive_create_multivolume.c; payloads shorter than 1024
bytes are always judged compressible regardless of the count.  (In
`compress_all_files` the resulting switch to the Copy coder additionally
applies only when the total payload exceeds 1 MiB.) -/
theorem claim_C5 (data : List Nat) :
    (is_data_compressible data = false ↔
      1024 ≤ data.length ∧ 220 ≤ uniqueCount data) ∧
    (mv_is_data_compressible data = false ↔
      1024 ≤ data.length ∧ 200 ≤ uniqueCount data) := by
  constructor
  · unfold is_data_compressible
    split_ifs with h
    · simp
      omega
    · simp
      omega
  · unfold mv_is_data_compressible
    split_ifs with h
    · simp
      omega
    · simp
      omega

/-- Frequency of `b` in the block of 219 triples `[1,1,1,2,2,2,…,219,…]`. -/
theorem count_triples (n b : Nat) :
    (((List.range n).bind fun v => List.replicate 3 (v + 1)).count b) =
      if 1 ≤ b ∧ b ≤ n then 3 else 0 := by
  induction n with
  | zero =>
    simp
    split_ifs <;> omega
  | succ n ih =>
    rw [List.range_succ,
      show ((List.range n ++ [n]).bind fun v => List.replicate 3 (v + 1)) =
        ((List.range n).bind fun v => List.replicate 3 (v + 1)) ++
          List.replicate 3 (n + 1) from by simp,
      List.count_append, ih, List.count_replicate]
    rw [show (if (n + 1 == b) = true then 3 else 0) =
        (if n + 1 = b then 3 else 0) from by
      by_cases hb : n + 1 = b <;> simp [hb]]
    split_ifs <;> omega

/-- **C5 counterexample**: a 1024-byte payload in which exactly 220 byte
values are frequent (byte 0 with frequency 367 and bytes 1..219 with
frequency 3 each; the threshold is 1024/512 = 2).  The claim says the data
is compressible (the count does not EXCEED 220); `is_data_compressible`
judges it incompressible. -/
theorem claim_C5_counterexample :
    is_data_compressible (List.replicate 367 0 ++
      (List.range 219).bind fun v => List.replicate 3 (v + 1)) = false ∧
    uniqueCount (List.replicate 367 0 ++
      (List.range 219).bind fun v => List.replicate 3 (v + 1)) = 220 := by
  set data := List.replicate 367 0 ++
    (List.range 219).bind fun v => List.replicate 3 (v + 1) with hdata
  have hlen : data.length = 1024 := by
    rw [hdata]
    decide
  have htake : data.take 65536 = data := List.take_of_length_le (by omega)
  have hcount : ∀ b, data.count b =
      (if b = 0 then 367 else 0) + (if 1 ≤ b ∧ b ≤ 219 then 3 else 0) := by
    intro b
    rw [hdata, List.count_append, List.count_replicate, count_triples]
    rw [show (if (0 == b) = true then 367 else 0) =
        (if b = 0 then 367 else 0) from by
      by_cases hb : b = 0 <;> simp [hb] <;> omega]
  have huc : uniqueCount data = 220 := by
    unfold uniqueCount
    rw [htake, hlen]
    rw [List.filter_congr (fun b _ => by rw [hcount b] :
      ∀ b ∈ List.range 256, decide (1024 / 512 < data.count b) =
        decide (1024 / 512 <
          ((if b = 0 then 367 else 0) + (if 1 ≤ b ∧ b ≤ 219 then 3 else 0))))]
    decide
  refine ⟨?_, huc⟩
  unfold is_data_compressible
  rw [if_neg (by omega), huc]
  simp

/-! ## C6: the multi-volume sink and the two write paths -/

theorem headD_append_left {α : Type} (l r : List α) (d : α) (h : l ≠ []) :
    (l ++ r).headD d = l.headD d := by
  cases l with
  | nil => exact absurd rfl h
  | cons a t => rfl

theorem sinkOpen_join (s : VolumeSink) :
    (sinkOpen s).volumes.join = s.volumes.join := by
  unfold sinkOpen
  split_ifs <;> simp

theorem sinkOpen_maxSize (s : VolumeSink) :
    (sinkOpen s).maxSize = s.maxSize := by
  unfold sinkOpen; split_ifs <;> rfl

theorem sinkOpen_ne (s : VolumeSink) : (sinkOpen s).volumes ≠ [] := by
  unfold sinkOpen
  split_ifs with h
  · simp
  · simp only [Bool.or_eq_true, not_or, List.isEmpty_eq_true] at h
    exact h.1

theorem sinkOpen_cur_lt (s : VolumeSink) (hmax : 0 < s.maxSize) :
    (sinkOpen s).curSize < (sinkOpen s).maxSize := by
  unfold sinkOpen
  split_ifs with h
  · exact hmax
  · simp only [Bool.or_eq_true, not_or, decide_eq_true_eq, Nat.not_le] at h
    exact h.2

theorem sinkOpen_head (s : VolumeSink) :
    (s.volumes.headD []).length ≤ ((sinkOpen s).volumes.headD []).length := by
  unfold sinkOpen
  split_ifs with h
  · cases hv : s.volumes with
    | nil => simp
    | cons v t => simp [headD_append_left (v :: t) [[]] [] (by simp)]
  · exact le_rfl

theorem sinkAppend_join (s : VolumeSink) (c : List Nat)
    (h : s.volumes ≠ []) :
    (sinkAppend s c).volumes.join = s.volumes.join ++ c := by
  unfold sinkAppend
  rcases List.eq_nil_or_concat' s.volumes with hnil | ⟨init, last, hsplit⟩
  · exact absurd hnil h
  · rw [hsplit, List.getLastD_concat, List.dropLast_concat]
    simp

theorem sinkAppend_maxSize (s : VolumeSink) (c : List Nat) :
    (sinkAppend s c).maxSize = s.maxSize := rfl

theorem sinkAppend_ne (s : VolumeSink) (c : List Nat) :
    (sinkAppend s c).volumes ≠ [] := by
  unfold sinkAppend
  simp

theorem sinkAppend_head (s : VolumeSink) (c : List Nat) :
    (s.volumes.headD []).length ≤
      ((sinkAppend s c).volumes.headD []).length := by
  unfold sinkAppend
  cases hv : s.volumes with
  | nil => simp
  | cons v t =>
    cases t with
    | nil => simp
    | cons w u =>
      rw [show (v :: w :: u).dropLast ++ [(v :: w :: u).getLastD [] ++ c] =
        v :: ((w :: u).dropLast ++ [(w :: u).getLastD [] ++ c]) from by
          simp [List.dropLast]]
      simp

/-- The `write_across_volumes` loop invariant: with a positive volume size
and enough fuel, the concatenation of the volumes grows by exactly the
written data; the maximum size is unchanged; the volume list never becomes
empty; and the first volume's length never shrinks. -/
theorem writeAcrossFuel_spec (fuel : Nat) :
    ∀ (s : VolumeSink) (data : List Nat), 0 < s.maxSize →
    data.length ≤ fuel →
    ((writeAcrossFuel fuel s data).volumes.join = s.volumes.join ++ data ∧
     (writeAcrossFuel fuel s data).maxSize = s.maxSize ∧
     (s.volumes ≠ [] → (writeAcrossFuel fuel s data).volumes ≠ []) ∧
     (s.volumes.headD []).length ≤
       ((writeAcrossFuel fuel s data).volumes.headD []).length) := by
  induction fuel with
  | zero =>
    intro s data hmax hlen
    have hd : data = [] := List.eq_nil_of_length_eq_zero (by omega)
    subst hd
    simp [writeAcrossFuel]
  | succ fuel ih =>
    intro s data hmax hlen
    by_cases hemp : data.isEmpty
    · have hd : data = [] := by
        cases data
        · rfl
        · simp [List.isEmpty] at hemp
      subst hd
      simp [writeAcrossFuel]
    · rw [writeAcrossFuel, if_neg hemp]
      have hdpos : data ≠ [] := by
        intro hd; subst hd; simp at hemp
      have hspace : 0 < (sinkOpen s).maxSize - (sinkOpen s).curSize := by
        have := sinkOpen_cur_lt s hmax
        omega
      have hfuel : (data.drop ((sinkOpen s).maxSize - (sinkOpen s).curSize)).length
          ≤ fuel := by
        rw [List.length_drop]
        have : 0 < data.length := List.length_pos.mpr hdpos
        omega
      have hmax' : 0 < (sinkAppend (sinkOpen s)
          (data.take ((sinkOpen s).maxSize - (sinkOpen s).curSize))).maxSize := by
        rw [sinkAppend_maxSize, sinkOpen_maxSize]
        exact hmax
      obtain ⟨hjoin, hmaxr, hne, hhead⟩ := ih _ _ hmax' hfuel
      refine ⟨?_, ?_, ?_, ?_⟩
      · rw [hjoin, sinkAppend_join _ _ (sinkOpen_ne s), sinkOpen_join,
          List.append_assoc, List.take_append_drop]
      · rw [hmaxr, sinkAppend_maxSize, sinkOpen_maxSize]
      · intro _
        exact hne (sinkAppend_ne _ _)
      · calc (s.volumes.headD []).length
            ≤ ((sinkOpen s).volumes.headD []).length := sinkOpen_head s
          _ ≤ ((sinkAppend (sinkOpen s) _).volumes.headD []).length :=
            sinkAppend_head _ _
          _ ≤ _ := hhead

/-- A patch confined to the first block of an append distributes over it. -/
theorem patchBytes_append_left (v R t : List Nat) (pos : Nat)
    (h : pos + t.length ≤ v.length) :
    patchBytes (v ++ R) pos t = patchBytes v pos t ++ R := by
  unfold patchBytes
  rw [List.take_append_eq_append_take, List.drop_append_eq_append_drop,
    show pos - v.length = 0 from by omega,
    show pos + t.length - v.length = 0 from by omega]
  simp

theorem ne_of_slice_ne {a b : List Nat} (p n : Nat)
    (h : listSlice a p n ≠ listSlice b p n) : a ≠ b := by
  intro he
  exact h (by rw [he])

/-- **C6** (corrected).  What survives of the claim is the volume-sink
invariant: for every file list and positive volume size, concatenating the
volumes produced by the Store-mode multi-volume writer in ascending index
order reconstructs that writer's logical archive stream exactly.  The
original claim — that this concatenation equals the `split_size = 0`
archive of the single-file path — is false: the two paths are separate
implementations whose outputs differ (the multi-volume gatherer records
`WinAttrib = 0x20/0x21` where the single-file path records `st_mode`, and
its header builder omits the EmptyStream group); see the counterexample. -/
theorem claim_C6 (files : List SevenZFile) (maxSize : Nat) (hmax : 0 < maxSize) :
    (mvWriteVolumesStore files maxSize).join = mvArchiveLogicalStore files := by
  simp only [mvWriteVolumesStore, mvArchiveLogicalStore, writeAcross]
  set pack := (nonDirFiles files).bind (fun f => f.data) with hpack
  set header := mvBuildHeaderStore files pack.length with hheader
  set tuple := le64 pack.length ++ le64 header.length ++ le32 (crc32 header)
    with htuple
  set sig := k7zSignature ++ [0, 4] ++ List.replicate 24 0 with hsig
  have hsiglen : sig.length = 32 := by
    rw [hsig]; simp [k7zSignature]
  obtain ⟨hj1, hm1, hne1, hh1⟩ :=
    writeAcrossFuel_spec pack.length ⟨[sig], 32, maxSize⟩ pack hmax le_rfl
  obtain ⟨hj2, hm2, hne2, hh2⟩ :=
    writeAcrossFuel_spec header.length
      (writeAcrossFuel pack.length ⟨[sig], 32, maxSize⟩ pack) header
      (by rw [hm1]; exact hmax) le_rfl
  set s1 := writeAcrossFuel header.length
    (writeAcrossFuel pack.length ⟨[sig], 32, maxSize⟩ pack) header with hs1
  have hjoin : s1.volumes.join = sig ++ pack ++ header := by
    rw [hs1, hj2, hj1]
    simp
  have hnonempty : s1.volumes ≠ [] := hne2 (hne1 (by simp))
  have hheadlen : 32 ≤ (s1.volumes.headD []).length := by
    calc (32 : Nat) = (([sig] : List (List Nat)).headD []).length := by
          simp [hsiglen]
      _ ≤ _ := le_trans hh1 hh2
  have htlen : (le32 (crc32 tuple) ++ tuple).length = 24 := by
    rw [htuple]
    simp [le32_length, le64_length]
  cases hv : s1.volumes with
  | nil => exact absurd hv hnonempty
  | cons v0 rest =>
    have hjv : v0 ++ rest.join = sig ++ pack ++ header := by
      rw [← hjoin, hv]
      simp
    have hv0len : 32 ≤ v0.length := by
      have := hheadlen
      rw [hv] at this
      simpa using this
    show (patchBytes v0 8 (le32 (crc32 tuple) ++ tuple) :: rest).join = _
    rw [show (patchBytes v0 8 (le32 (crc32 tuple) ++ tuple) :: rest).join =
      patchBytes v0 8 (le32 (crc32 tuple) ++ tuple) ++ rest.join from by simp]
    rw [← patchBytes_append_left v0 rest.join _ 8 (by omega : 8 +
        (le32 (crc32 tuple) ++ tuple).length ≤ v0.length), hjv]

/-- Witness for C6 at the empty file list, volume size 1. -/
theorem claim_C6_witness :
    0 < 1 ∧ (mvWriteVolumesStore [] 1).join = mvArchiveLogicalStore [] :=
  ⟨by decide, claim_C6 [] 1 (by decide)⟩

/-- **C6 counterexample**: one regular input file of 1026 zero bytes with
mode `0o100644` and mtime 0, written in Store mode with `split_size = 1025`
(`> 1 KiB`, and the total size 1026 exceeds it, so the streaming API takes
the multi-volume path).  The concatenation of the produced volumes differs
from the `split_size = 0` archive of the same input: at byte offset 1114
(the WinAttrib value of the only entry) the volumes hold `0x20`
(FILE_ATTRIBUTE_ARCHIVE, from the multi-volume gatherer) while the single
archive holds `0x81A4` (`st_mode`); the Signature Header CRC fields differ
accordingly. -/
theorem claim_C6_counterexample :
    (mvWriteVolumesStore
        [mvScanSingle [102] (List.replicate 1026 0) 33188 0] 1025).join ≠
      write7zArchive [scanSingle [102] (List.replicate 1026 0) 33188 0]
        true 0 (List.replicate 1026 0) := by
  apply ne_of_slice_ne 1114 4
  decide

/-! ## C7: the split-volume open loop -/

/-- The collecting loop equals the maximal consecutive run of existing
volumes starting at `i`: ascending indices, stopping at the first missing
one (later volumes are never consulted). -/
theorem collectVolumesFuel_eq (fs : List (List Char × Nat)) (base : List Char) :
    ∀ (fuel i : Nat), 1000 - i ≤ fuel →
    collectVolumesFuel fs base i fuel =
      ((List.range' i (1000 - i)).takeWhile
        (fun k => (fsLookup fs (volumeName base k)).isSome)).map
        (fun k => (fsLookup fs (volumeName base k)).getD 0) := by
  intro fuel
  induction fuel with
  | zero =>
    intro i h
    rw [show 1000 - i = 0 from by omega]
    rfl
  | succ fuel ih =>
    intro i h
    by_cases hgt : 999 < i
    · rw [show 1000 - i = 0 from by omega]
      simp [collectVolumesFuel, hgt]
    · rw [show 1000 - i = (1000 - (i + 1)) + 1 from by omega, List.range'_succ]
      cases hlk : fsLookup fs (volumeName base i) with
      | some sz =>
        simp only [collectVolumesFuel, if_neg hgt, hlk, List.takeWhile_cons,
          Option.isSome_some, List.map_cons]
        rw [ih (i + 1) (by omega)]
        simp [hlk]
      | none =>
        simp [collectVolumesFuel, if_neg hgt, hlk, List.takeWhile_cons]

/-- **C7** (corrected).  `open_split_volumes` opens `<base>.001` (or the
bare `<base>` when `.001` is absent) and then `<base>.NNN` in ascending
order, stopping at the FIRST missing index; it fails only when no first
volume exists.  A gap past 001 does NOT make the open fail: the function
succeeds with the truncated volume run and never consults the later
volumes (contrary to the claim's `OpenFailed` on a gap; see the
counterexample). -/
theorem claim_C7 (fs : List (List Char × Nat)) (p : List Char) :
    (open_split_volumes fs p = none ↔
      fsLookup fs (volumeName (trimBase p) 1) = none ∧
      fsLookup fs (trimBase p) = none) ∧
    (∀ sz, fsLookup fs (volumeName (trimBase p) 1) = some sz →
      open_split_volumes fs p = some (sz ::
        ((List.range' 2 998).takeWhile
          (fun k => (fsLookup fs (volumeName (trimBase p) k)).isSome)).map
          (fun k => (fsLookup fs (volumeName (trimBase p) k)).getD 0))) ∧
    (∀ sz, fsLookup fs (volumeName (trimBase p) 1) = none →
      fsLookup fs (trimBase p) = some sz →
      open_split_volumes fs p = some (sz ::
        ((List.range' 2 998).takeWhile
          (fun k => (fsLookup fs (volumeName (trimBase p) k)).isSome)).map
          (fun k => (fsLookup fs (volumeName (trimBase p) k)).getD 0))) := by
  have hrun : collectVolumes fs (trimBase p) 2 =
      ((List.range' 2 998).takeWhile
        (fun k => (fsLookup fs (volumeName (trimBase p) k)).isSome)).map
        (fun k => (fsLookup fs (volumeName (trimBase p) k)).getD 0) := by
    unfold collectVolumes
    rw [collectVolumesFuel_eq fs (trimBase p) (1000 - 2) 2 le_rfl]
  refine ⟨?_, ?_, ?_⟩
  · unfold open_split_volumes
    cases h1 : fsLookup fs (volumeName (trimBase p) 1) with
    | some sz => simp [h1]
    | none =>
      cases hb : fsLookup fs (trimBase p) with
      | some sz => simp [h1, hb]
      | none => simp [h1, hb]
  · intro sz h1
    unfold open_split_volumes
    simp [h1, hrun]
  · intro sz h1 hb
    unfold open_split_volumes
    simp [h1, hb, hrun]

/-- Witness for C7: a file system holding just `a.001`. -/
theorem claim_C7_witness :
    ((open_split_volumes [(volumeName ['a'] 1, 5)] ['a'] = none ↔
      fsLookup [(volumeName ['a'] 1, 5)] (volumeName (trimBase ['a']) 1) = none ∧
      fsLookup [(volumeName ['a'] 1, 5)] (trimBase ['a']) = none) ∧
     (∀ sz, fsLookup [(volumeName ['a'] 1, 5)]
        (volumeName (trimBase ['a']) 1) = some sz →
      open_split_volumes [(volumeName ['a'] 1, 5)] ['a'] = some (sz ::
        ((List.range' 2 998).takeWhile
          (fun k => (fsLookup [(volumeName ['a'] 1, 5)]
            (volumeName (trimBase ['a']) k)).isSome)).map
          (fun k => (fsLookup [(volumeName ['a'] 1, 5)]
            (volumeName (trimBase ['a']) k)).getD 0))) ∧
     (∀ sz, fsLookup [(volumeName ['a'] 1, 5)]
        (volumeName (trimBase ['a']) 1) = none →
      fsLookup [(volumeName ['a'] 1, 5)] (trimBase ['a']) = some sz →
      open_split_volumes [(volumeName ['a'] 1, 5)] ['a'] = some (sz ::
        ((List.range' 2 998).takeWhile
          (fun k => (fsLookup [(volumeName ['a'] 1, 5)]
            (volumeName (trimBase ['a']) k)).isSome)).map
          (fun k => (fsLookup [(volumeName ['a'] 1, 5)]
            (volumeName (trimBase ['a']) k)).getD 0)))) ∧
    fsLookup [(volumeName ['a'] 1, 5)] (volumeName (trimBase ['a']) 1) = some 5 :=
  ⟨claim_C7 [(volumeName ['a'] 1, 5)] ['a'], by decide⟩

/-- **C7 counterexample**: volumes `a.001` and `a.003` exist but `a.002`
does not (a gap past 001).  The open SUCCEEDS with the truncated set
`[100]` instead of failing with `OpenFailed`. -/
theorem claim_C7_counterexample :
    fsLookup [(volumeName ['a'] 1, 100), (volumeName ['a'] 3, 50)]
      (volumeName ['a'] 3) = some 50 ∧
    fsLookup [(volumeName ['a'] 1, 100), (volumeName ['a'] 3, 50)]
      (volumeName ['a'] 2) = none ∧
    open_split_volumes [(volumeName ['a'] 1, 100), (volumeName ['a'] 3, 50)]
      ['a'] = some [100] := by
  decide

/-! ## C8: AES-CBC decryption and PKCS#7 padding -/

/-- **C8** (corrected).  For a ciphertext whose length is a positive
multiple of 16 (with the block decryption `cbcDecode` length-preserving, as
the in-place `g_AesCbc_Decode` is): when the decrypted trailing byte `pad`
lies in `[1,16]`, the call succeeds with the last `pad` bytes stripped if
they all equal `pad` and fails with `SEVENZIP_ERROR_EXTRACT` (the
wrong-password error) if any differs; but when `pad` is NOT in `[1,16]`
the call does NOT fail — it SUCCEEDS and returns the full decrypted buffer
(contrary to the claim; see the counterexample). -/
theorem claim_C8 (cbcDecode : List Nat → List Nat) (ct : List Nat)
    (h16 : ct.length % 16 = 0) (hpos : 0 < ct.length)
    (hlen : (cbcDecode ct).length = ct.length) :
    (1 ≤ (cbcDecode ct).getD (ct.length - 1) 0 ∧
        (cbcDecode ct).getD (ct.length - 1) 0 ≤ 16 →
      ((∀ i, ct.length - (cbcDecode ct).getD (ct.length - 1) 0 ≤ i →
          i < ct.length →
          (cbcDecode ct).getD i 0 = (cbcDecode ct).getD (ct.length - 1) 0) →
        sevenzip_decrypt_data cbcDecode ct =
          .ok ((cbcDecode ct).take
            (ct.length - (cbcDecode ct).getD (ct.length - 1) 0))) ∧
      ((∃ i, ct.length - (cbcDecode ct).getD (ct.length - 1) 0 ≤ i ∧
          i < ct.length ∧
          (cbcDecode ct).getD i 0 ≠ (cbcDecode ct).getD (ct.length - 1) 0) →
        sevenzip_decrypt_data cbcDecode ct = .errorExtract)) ∧
    ((cbcDecode ct).getD (ct.length - 1) 0 = 0 ∨
        16 < (cbcDecode ct).getD (ct.length - 1) 0 →
      sevenzip_decrypt_data cbcDecode ct = .ok (cbcDecode ct)) := by
  have hall : ∀ pad : Nat,
      ((List.range' (ct.length - pad) pad).all
        (fun i => (cbcDecode ct).getD i 0 = pad)) = true ↔
      (∀ i, ct.length - pad ≤ i → i < ct.length - pad + pad →
        (cbcDecode ct).getD i 0 = pad) := by
    intro pad
    rw [List.all_eq_true]
    constructor
    · intro h i h1 h2
      have : i ∈ List.range' (ct.length - pad) pad := by
        rw [List.mem_range'_1]
        omega
      simpa using h i this
    · intro h i hi
      rw [List.mem_range'_1] at hi
      simpa using h i (by omega) (by omega)
  constructor
  · intro ⟨hp1, hp16⟩
    have hple : (cbcDecode ct).getD (ct.length - 1) 0 ≤ ct.length := by omega
    constructor
    · intro hok
      unfold sevenzip_decrypt_data
      rw [if_neg (by omega)]
      rw [if_pos ⟨hp1, hp16⟩]
      rw [if_pos (by
        rw [hall]
        intro i h1 h2
        exact hok i h1 (by omega))]
    · intro ⟨i, hi1, hi2, hine⟩
      unfold sevenzip_decrypt_data
      rw [if_neg (by omega)]
      rw [if_pos ⟨hp1, hp16⟩]
      rw [if_neg (by
        rw [hall]
        intro hcon
        exact hine (hcon i hi1 (by omega)))]
  · intro hout
    unfold sevenzip_decrypt_data
    rw [if_neg (by omega)]
    rw [if_neg (by omega)]
    rw [show (cbcDecode ct).take ct.length = cbcDecode ct from by
      rw [← hlen, List.take_length]]

/-- Witness for C8 with the identity block decryption and the all-ones
16-byte block (`pad = 1`, valid padding). -/
theorem claim_C8_witness :
    (List.replicate 16 1 : List Nat).length % 16 = 0 ∧
    0 < (List.replicate 16 1 : List Nat).length ∧
    (id (List.replicate 16 1) : List Nat).length =
      (List.replicate 16 1 : List Nat).length ∧
    ((1 ≤ (id (List.replicate 16 1) : List Nat).getD
          ((List.replicate 16 1 : List Nat).length - 1) 0 ∧
        (id (List.replicate 16 1) : List Nat).getD
          ((List.replicate 16 1 : List Nat).length - 1) 0 ≤ 16 →
      ((∀ i, (List.replicate 16 1 : List Nat).length -
            (id (List.replicate 16 1) : List Nat).getD
              ((List.replicate 16 1 : List Nat).length - 1) 0 ≤ i →
          i < (List.replicate 16 1 : List Nat).length →
          (id (List.replicate 16 1) : List Nat).getD i 0 =
            (id (List.replicate 16 1) : List Nat).getD
              ((List.replicate 16 1 : List Nat).length - 1) 0) →
        sevenzip_decrypt_data id (List.replicate 16 1) =
          .ok ((id (List.replicate 16 1) : List Nat).take
            ((List.replicate 16 1 : List Nat).length -
              (id (List.replicate 16 1) : List Nat).getD
                ((List.replicate 16 1 : List Nat).length - 1) 0))) ∧
      ((∃ i, (List.replicate 16 1 : List Nat).length -
            (id (List.replicate 16 1) : List Nat).getD
              ((List.replicate 16 1 : List Nat).length - 1) 0 ≤ i ∧
          i < (List.replicate 16 1 : List Nat).length ∧
          (id (List.replicate 16 1) : List Nat).getD i 0 ≠
            (id (List.replicate 16 1) : List Nat).getD
              ((List.replicate 16 1 : List Nat).length - 1) 0) →
        sevenzip_decrypt_data id (List.replicate 16 1) = .errorExtract)) ∧
     ((id (List.replicate 16 1) : List Nat).getD
          ((List.replicate 16 1 : List Nat).length - 1) 0 = 0 ∨
        16 < (id (List.replicate 16 1) : List Nat).getD
          ((List.replicate 16 1 : List Nat).length - 1) 0 →
      sevenzip_decrypt_data id (List.replicate 16 1) =
        .ok (id (List.replicate 16 1)))) :=
  ⟨by decide, by decide, rfl,
    claim_C8 id (List.replicate 16 1) (by decide) (by decide) rfl⟩

/-- **C8 counterexample**: a 16-byte ciphertext whose decryption (identity
block cipher model) ends in byte 0 — a padding value outside `[1,16]`.
The claim demands failure with the wrong-password error;
`sevenzip_decrypt_data` SUCCEEDS and returns all 16 bytes. -/
theorem claim_C8_counterexample :
    (List.replicate 16 (0 : Nat)).getD 15 0 = 0 ∧
    sevenzip_decrypt_data id (List.replicate 16 0) =
      .ok (List.replicate 16 0) := by
  decide

/-! ## C9: password key derivation -/

theorem foldl_range_const (f : List Nat → List Nat) (x : List Nat) (n : Nat) :
    (List.range n).foldl (fun h _ => f h) x = f^[n] x := by
  induction n with
  | zero => simp
  | succ n ih =>
    rw [List.range_succ, List.foldl_append, ih]
    simp [Function.iterate_succ_apply']

/-- **C9** (confirmed).  `derive_key_from_password` at the call-site
parameters (262144 iterations, 32-byte key): iteration 1 hashes
`password ++ salt`, iterations 2 through 262144 each hash the previous
32-byte digest, and the final digest is used directly (in full) as the
AES-256 key.  `sha256` is the external SDK's SHA-256, abstracted as any
function producing 32-byte digests. -/
theorem claim_C9 (sha256 : List Nat → List Nat) (password salt : List Nat)
    (hdigest : ∀ x, (sha256 x).length = 32) :
    derive_key_from_password sha256 password salt 262144 32 =
      sha256^[262143] (sha256 (password ++ salt)) := by
  simp only [derive_key_from_password]
  rw [show (262144 : Nat) - 1 = 262143 from rfl, foldl_range_const,
    show (min 32 32 : Nat) = 32 from rfl]
  have hfinal : (sha256^[262143] (sha256 (password ++ salt))).length = 32 := by
    rw [show (262143 : Nat) = 262142 + 1 from rfl,
      Function.iterate_succ_apply']
    exact hdigest _
  rw [← hfinal, List.take_length]

/-- Witness for C9 with the constant digest function. -/
theorem claim_C9_witness :
    derive_key_from_password shaZero [1] [2] 262144 32 =
      shaZero^[262143] (shaZero ([1] ++ [2])) :=
  claim_C9 shaZero [1] [2] (fun x => by simp [shaZero])

/-! ## C10: the read path ignores the password -/

/-- **C10** (confirmed).  The bodies of `sevenzip_extract` and
`sevenzip_list` never read their `password` parameter: in any environment
(archive database, file-system outcomes), two runs that differ only in the
password — including `NULL` versus any string — perform the same
file-system operations, produce identical extracted bytes, and return the
same result code; and the listing is identical for every password. -/
theorem claim_C10 (env : ExtractEnv)
    (archive_path output_dir : Option (List Nat))
    (p₁ p₂ : Option (List Nat)) :
    sevenzip_extract env archive_path output_dir p₁ =
      sevenzip_extract env archive_path output_dir p₂ ∧
    sevenzip_list env archive_path p₁ = sevenzip_list env archive_path p₂ :=
  ⟨rfl, rfl⟩

end SevenZip
